import Mathlib

/-!
Verification of the monosize bundler-adapter core: output-path derivation,
multi-entry batching (entry maps, collision handling), enhancer plumbing,
error propagation and the batch/single equivalence guarantee.

Paths are modelled as lists of characters (`Chars`).  The Node.js `path`
module (an external library used by the sources) is modelled by the
`basenameChars` / `dirnameChars` / `extnameChars` / `joinChars` functions
below, following the documented POSIX behaviour; dot-segment resolution of
`path.join` is not modelled (no input in this development contains `.` or
`..` segments).
-/

/-- Paths and other JavaScript strings are modelled as lists of characters. -/
abbrev Chars := List Char

/-- Remove trailing slash characters (Node's path functions ignore them). -/
def dropTrailingSlashes (p : Chars) : Chars :=
  (p.reverse.dropWhile (· = '/')).reverse

/-- Node `path.basename(p)`: the last path segment, ignoring trailing slashes. -/
def basenameChars (p : Chars) : Chars :=
  ((dropTrailingSlashes p).reverse.takeWhile (· ≠ '/')).reverse

/-- Node `path.dirname(p)`: everything before the last slash of the last
segment; `.` when there is no slash, `/` for root-anchored degenerate cases. -/
def dirnameChars (p : Chars) : Chars :=
  match (dropTrailingSlashes p).reverse.dropWhile (· ≠ '/') with
  | [] => if p.head? = some '/' then ['/'] else ['.']
  | _ :: rest => if rest = [] then ['/'] else rest.reverse

/-- Node `path.extname(p)`: the part of the basename from its last dot,
empty when the basename has no dot, starts with its only dot, or is `..`. -/
def extnameChars (p : Chars) : Chars :=
  if ((basenameChars p).reverse.takeWhile (· ≠ '.')).length = (basenameChars p).length then []
  else if (basenameChars p).length - ((basenameChars p).reverse.takeWhile (· ≠ '.')).length - 1
      = 0 then []
  else if basenameChars p = ['.', '.'] then []
  else '.' :: ((basenameChars p).reverse.takeWhile (· ≠ '.')).reverse

/-- Node `path.basename(p, suffix)`: the basename with `suffix` stripped when
the basename ends with it and is not the suffix itself. -/
def basenameSuffixChars (p suffix : Chars) : Chars :=
  if basenameChars p ≠ suffix ∧
      (basenameChars p).drop ((basenameChars p).length - suffix.length) = suffix
  then (basenameChars p).take ((basenameChars p).length - suffix.length)
  else basenameChars p

/-- Collapse runs of consecutive slashes to a single slash
(the normalization `path.join` performs on its joined result). -/
def collapseSlashes : Chars → Chars
  | [] => []
  | a :: rest =>
    match rest with
    | [] => [a]
    | b :: _ =>
      if a = '/' ∧ b = '/' then collapseSlashes rest else a :: collapseSlashes rest

/-- Node `path.join(a, b)` restricted to slash handling (no dot segments). -/
def joinChars (a b : Chars) : Chars :=
  if a = [] then b else if b = [] then a else collapseSlashes (a ++ '/' :: b)

/-- JavaScript `p.replace(/\.fixture.js$/, replacement)` — note the source
regex leaves the second dot unescaped, so it matches `.fixture` followed by
any character followed by `js` at the end of the string. -/
def replaceFixtureSuffixAny (replacement : Chars) (p : Chars) : Chars :=
  if 11 ≤ p.length ∧ (p.drop (p.length - 11)).take 8 = (".fixture").data ∧
      (p.drop (p.length - 11)).drop 9 = ("js").data
  then p.take (p.length - 11) ++ replacement else p

/-- JavaScript `p.replace(/\.fixture\.js$/, replacement)` — fully escaped
regex: replaces a literal `.fixture.js` suffix. -/
def replaceFixtureSuffixExact (replacement : Chars) (p : Chars) : Chars :=
  if p.drop (p.length - 11) = (".fixture.js").data ∧ 11 ≤ p.length
  then p.take (p.length - 11) ++ replacement else p

/-- esbuild `createEsbuildBundler`: `fixturePath.replace(/\.fixture.js$/, '.output.js')`
(same directory as the fixture). -/
def esbuildOutputPath (fixturePath : Chars) : Chars :=
  replaceFixtureSuffixAny (".output.js").data fixturePath

/-- rspack `createRspackBundler`: `path.join(path.join(path.dirname(fixturePath), 'dist'),
fixtureName.replace(/\.fixture\.js$/, '.output.js'))` — the release artifact lands in a
`dist` subdirectory of the fixture's directory. -/
def rspackOutputPath (fixturePath : Chars) : Chars :=
  joinChars (joinChars (dirnameChars fixturePath) ("dist").data)
    (replaceFixtureSuffixExact (".output.js").data (basenameChars fixturePath))

/-- rspack `createRspackBundler`: debug artifact path, derived with the
unescaped-dot regex `/\.fixture.js$/` in the source. -/
def rspackDebugOutputPath (fixturePath : Chars) : Chars :=
  joinChars (joinChars (dirnameChars fixturePath) ("dist").data)
    (replaceFixtureSuffixAny (".debug.js").data (basenameChars fixturePath))

/-- Modelled from the spec: `createWebpackBundler.mts` is not among the sources
(only its tests and `runWebpack.mts` are); per §4.2/§6 the webpack adapter derives
the release path by replacing the fixed `.fixture.js` suffix with `.output.js`
in the fixture's own directory. -/
def webpackOutputPath (fixturePath : Chars) : Chars :=
  replaceFixtureSuffixExact (".output.js").data fixturePath

/-- Modelled from the spec: webpack debug artifact path — the fixed `.fixture.js`
suffix replaced with `.debug.js` (§6). -/
def webpackDebugOutputPath (fixturePath : Chars) : Chars :=
  replaceFixtureSuffixExact (".debug.js").data fixturePath

/-- A fixture as supplied to the adapters: source path plus display name. -/
structure FixtureInput where
  fixturePath : Chars
  name : Chars
deriving DecidableEq, Inhabited, Repr

/-- The adapter output contract `{ name?, outputPath, debugOutputPath? }`. -/
structure BuildResult where
  name : Option Chars
  outputPath : Chars
  debugOutputPath : Option Chars
deriving DecidableEq, Inhabited, Repr

-- Sanity examples for the path model (concrete evaluations of the source rules).
example : esbuildOutputPath ("/pkg/monosize/test.fixture.js").data
    = ("/pkg/monosize/test.output.js").data := by decide
example : rspackOutputPath ("/pkg/monosize/test.fixture.js").data
    = ("/pkg/monosize/dist/test.output.js").data := by decide
example : basenameChars ("/a/b/c.js").data = ("c.js").data := by decide
example : dirnameChars ("/a/b/c.js").data = ("/a/b").data := by decide
example : extnameChars ("/a/b/c.output.js").data = (".js").data := by decide
example : basenameSuffixChars ("/d/widget.output.js").data (".js").data
    = ("widget.output").data := by decide

/-! ### List helper lemmas for the path model -/

theorem takeWhileAppendStop (pred : Char → Bool) (l₁ : Chars) (c : Char) (l₂ : Chars)
    (h : ∀ a ∈ l₁, pred a = true) (hc : pred c = false) :
    (l₁ ++ c :: l₂).takeWhile pred = l₁ := by
  induction l₁ with
  | nil => simp [List.takeWhile_cons, hc]
  | cons a l ih =>
    have ha : pred a = true := h a (List.mem_cons_self a l)
    simp only [List.cons_append, List.takeWhile_cons, ha, if_true]
    rw [ih (fun x hx => h x (List.mem_cons_of_mem a hx))]

theorem dropWhileAppendStop (pred : Char → Bool) (l₁ : Chars) (c : Char) (l₂ : Chars)
    (h : ∀ a ∈ l₁, pred a = true) (hc : pred c = false) :
    (l₁ ++ c :: l₂).dropWhile pred = c :: l₂ := by
  induction l₁ with
  | nil => simp [List.dropWhile_cons, hc]
  | cons a l ih =>
    have ha : pred a = true := h a (List.mem_cons_self a l)
    simp only [List.cons_append, List.dropWhile_cons, ha, if_true]
    exact ih (fun x hx => h x (List.mem_cons_of_mem a hx))

theorem dropTrailingSlashes_append (d t : Chars) (ht : t ≠ []) (hts : '/' ∉ t) :
    dropTrailingSlashes (d ++ '/' :: t) = d ++ '/' :: t := by
  obtain ⟨c, r, hr⟩ := List.exists_cons_of_ne_nil (by simpa using ht : t.reverse ≠ [])
  have hc : c ∈ t := by
    have : c ∈ t.reverse := by rw [hr]; exact List.mem_cons_self c r
    simpa using this
  have hcs : decide (c = '/') = false := by
    simp only [decide_eq_false_iff_not]
    intro hcc; exact hts (hcc ▸ hc)
  have hrev : (d ++ '/' :: t).reverse = t.reverse ++ '/' :: d.reverse := by simp
  unfold dropTrailingSlashes
  rw [hrev, hr, List.cons_append, List.dropWhile_cons]
  simp only [hcs, if_false, Bool.false_eq_true]
  rw [← List.cons_append, ← hr, ← hrev, List.reverse_reverse]

theorem basenameChars_append (d t : Chars) (ht : t ≠ []) (hts : '/' ∉ t) :
    basenameChars (d ++ '/' :: t) = t := by
  unfold basenameChars
  rw [dropTrailingSlashes_append d t ht hts]
  have hrev : (d ++ '/' :: t).reverse = t.reverse ++ '/' :: d.reverse := by simp
  rw [hrev, takeWhileAppendStop _ t.reverse '/' d.reverse ?_ ?_, List.reverse_reverse]
  · intro a ha
    have : a ∈ t := by simpa using ha
    simp only [decide_eq_true_eq]
    intro haa; exact hts (haa ▸ this)
  · simp

theorem dirnameChars_append (d t : Chars) (hd : d ≠ []) (ht : t ≠ []) (hts : '/' ∉ t) :
    dirnameChars (d ++ '/' :: t) = d := by
  unfold dirnameChars
  rw [dropTrailingSlashes_append d t ht hts]
  have hrev : (d ++ '/' :: t).reverse = t.reverse ++ '/' :: d.reverse := by simp
  rw [hrev, dropWhileAppendStop _ t.reverse '/' d.reverse ?_ ?_]
  · simp [List.reverse_eq_nil_iff, hd]
  · intro a ha
    have : a ∈ t := by simpa using ha
    simp only [decide_eq_true_eq]
    intro haa; exact hts (haa ▸ this)
  · simp

theorem replaceFixtureSuffixExact_append (r x : Chars) :
    replaceFixtureSuffixExact r (x ++ (".fixture.js").data) = x ++ r := by
  have hfix : ((".fixture.js").data).length = 11 := by decide
  have hlen : (x ++ (".fixture.js").data).length = x.length + 11 := by
    simp [List.length_append, hfix]
  have h1 : (x ++ (".fixture.js").data).drop ((x ++ (".fixture.js").data).length - 11)
      = (".fixture.js").data := by
    rw [hlen, Nat.add_sub_cancel, List.drop_left]
  have h2 : 11 ≤ (x ++ (".fixture.js").data).length := by rw [hlen]; omega
  rw [replaceFixtureSuffixExact, if_pos ⟨h1, h2⟩, hlen, Nat.add_sub_cancel, List.take_left]

theorem replaceFixtureSuffixAny_append (r x : Chars) :
    replaceFixtureSuffixAny r (x ++ (".fixture.js").data) = x ++ r := by
  have hfix : ((".fixture.js").data).length = 11 := by decide
  have hlen : (x ++ (".fixture.js").data).length = x.length + 11 := by
    simp [List.length_append, hfix]
  have hdrop : (x ++ (".fixture.js").data).drop ((x ++ (".fixture.js").data).length - 11)
      = (".fixture.js").data := by
    rw [hlen, Nat.add_sub_cancel, List.drop_left]
  have h2 : 11 ≤ (x ++ (".fixture.js").data).length := by rw [hlen]; omega
  have h3 : ((x ++ (".fixture.js").data).drop ((x ++ (".fixture.js").data).length - 11)).take 8
      = (".fixture").data := by rw [hdrop]; decide
  have h4 : ((x ++ (".fixture.js").data).drop ((x ++ (".fixture.js").data).length - 11)).drop 9
      = ("js").data := by rw [hdrop]; decide
  rw [replaceFixtureSuffixAny, if_pos ⟨h2, h3, h4⟩, hlen, Nat.add_sub_cancel, List.take_left]

/-- A well-formed fixture path: a non-empty directory prefix, a slash, and a
slash-free stem followed by the `.fixture.js` suffix. -/
def fixturePathOf (d s : Chars) : Chars := d ++ '/' :: (s ++ (".fixture.js").data)

theorem slashNotMemSuffix (s : Chars) (hs : '/' ∉ s) : '/' ∉ s ++ (".fixture.js").data := by
  intro h
  rcases List.mem_append.mp h with h1 | h1
  · exact hs h1
  · exact absurd h1 (by decide)

/-- C2 — counterexample: the rspack backend does not keep the fixture's
directory: for `/a/b.fixture.js` it derives `/a/dist/b.output.js`, not the
same-directory `/a/b.output.js` that esbuild derives and the claim requires
of every backend. -/
theorem c2_counterexample :
    esbuildOutputPath ("/a/b.fixture.js").data = ("/a/b.output.js").data ∧
    rspackOutputPath ("/a/b.fixture.js").data = ("/a/dist/b.output.js").data ∧
    rspackOutputPath ("/a/b.fixture.js").data ≠ ("/a/b.output.js").data := by
  refine ⟨by decide, by decide, by decide⟩

/-- C2 (amended): for a fixture path `d/s.fixture.js` (non-empty directory,
slash-free stem), esbuild and webpack derive the release output `d/s.output.js`
(and webpack the debug output `d/s.debug.js`) in the fixture's own directory by
pure suffix replacement, while rspack derives them inside the `dist`
subdirectory of the fixture's directory; all derivations are pure string
transforms. -/
theorem c2_path_derivation (d s : Chars) (hd : d ≠ []) (hs : '/' ∉ s) :
    esbuildOutputPath (fixturePathOf d s) = d ++ '/' :: (s ++ (".output.js").data) ∧
    webpackOutputPath (fixturePathOf d s) = d ++ '/' :: (s ++ (".output.js").data) ∧
    webpackDebugOutputPath (fixturePathOf d s) = d ++ '/' :: (s ++ (".debug.js").data) ∧
    rspackOutputPath (fixturePathOf d s)
      = joinChars (joinChars d ("dist").data) (s ++ (".output.js").data) ∧
    rspackDebugOutputPath (fixturePathOf d s)
      = joinChars (joinChars d ("dist").data) (s ++ (".debug.js").data) := by
  have hassoc : fixturePathOf d s = (d ++ '/' :: s) ++ (".fixture.js").data := by
    simp [fixturePathOf]
  have ht : s ++ (".fixture.js").data ≠ [] := by
    intro h
    have := congrArg List.length h
    simp [List.length_append] at this
  have hts : '/' ∉ s ++ (".fixture.js").data := slashNotMemSuffix s hs
  have hbase : basenameChars (fixturePathOf d s) = s ++ (".fixture.js").data :=
    basenameChars_append d _ ht hts
  have hdir : dirnameChars (fixturePathOf d s) = d :=
    dirnameChars_append d _ hd ht hts
  refine ⟨?_, ?_, ?_, ?_, ?_⟩
  · rw [esbuildOutputPath, hassoc, replaceFixtureSuffixAny_append]
    simp [List.append_assoc]
  · rw [webpackOutputPath, hassoc, replaceFixtureSuffixExact_append]
    simp [List.append_assoc]
  · rw [webpackDebugOutputPath, hassoc, replaceFixtureSuffixExact_append]
    simp [List.append_assoc]
  · rw [rspackOutputPath, hbase, hdir, replaceFixtureSuffixExact_append]
  · rw [rspackDebugOutputPath, hbase, hdir, replaceFixtureSuffixAny_append]

/-- C2 (amended) — witness at the concrete fixture path `/a/b.fixture.js`. -/
theorem c2_path_derivation_witness :
    (("/a").data ≠ ([] : Chars) ∧ '/' ∉ ("b").data) ∧
    (esbuildOutputPath (fixturePathOf ("/a").data ("b").data)
        = ("/a").data ++ '/' :: (("b").data ++ (".output.js").data) ∧
      webpackOutputPath (fixturePathOf ("/a").data ("b").data)
        = ("/a").data ++ '/' :: (("b").data ++ (".output.js").data) ∧
      webpackDebugOutputPath (fixturePathOf ("/a").data ("b").data)
        = ("/a").data ++ '/' :: (("b").data ++ (".debug.js").data) ∧
      rspackOutputPath (fixturePathOf ("/a").data ("b").data)
        = joinChars (joinChars ("/a").data ("dist").data) (("b").data ++ (".output.js").data) ∧
      rspackDebugOutputPath (fixturePathOf ("/a").data ("b").data)
        = joinChars (joinChars ("/a").data ("dist").data) (("b").data ++ (".debug.js").data)) :=
  ⟨⟨by decide, by decide⟩, c2_path_derivation ("/a").data ("b").data (by decide) (by decide)⟩

/-! ### Webpack configuration model (`runWebpack.mts`) -/

/-- The Terser plugin instance constructed in `createBaseWebpackConfig`
(`extractComments: false`, `format.comments: false`). -/
structure WebpackTerser where
  extractComments : Bool
  formatComments : Bool
deriving DecidableEq, Repr

/-- `new TerserWebpackPlugin({ extractComments: false, terserOptions: { format: { comments: false } } })`. -/
def defaultTerserPlugin : WebpackTerser := ⟨false, false⟩

/-- The fields of `createBaseWebpackConfig` shared by single and multi-entry
webpack builds; spread fields absent unless debug are modelled as `Option`. -/
structure WebpackBaseConfig where
  name : Chars
  target : Chars
  mode : Chars
  cacheType : Chars
  externalsList : List (Chars × Chars)
  performanceHints : Bool
  minimizer : List WebpackTerser
  minimize : Option Bool
  statsOptimizationBailout : Option Bool
deriving DecidableEq, Repr

/-- `createBaseWebpackConfig(debug)` from `runWebpack.mts`. -/
def createBaseWebpackConfig (debug : Bool) : WebpackBaseConfig :=
  { name := ("client").data
    target := ("web").data
    mode := ("production").data
    cacheType := ("memory").data
    externalsList := [(("react").data, ("React").data), (("react-dom").data, ("ReactDOM").data)]
    performanceHints := false
    minimizer := if debug then [] else [defaultTerserPlugin]
    minimize := if debug then some false else none
    statsOptimizationBailout := if debug then some true else none }

/-- A webpack `entry`: a single fixture path or an entry map. -/
inductive WebpackEntry where
  | single (fixturePath : Chars)
  | multi (entries : List (Chars × Chars))
deriving DecidableEq, Repr

/-- A full webpack configuration: the base fields plus `entry` and `output`
(`output.filename`, `output.path`, `output.pathinfo`). -/
structure WebpackConfig where
  base : WebpackBaseConfig
  entry : WebpackEntry
  outputFilename : Chars
  outputDir : Chars
  outputPathinfo : Option Bool
deriving DecidableEq, Repr

/-- `createWebpackConfig(fixturePath, outputPath, debug)` from `runWebpack.mts`. -/
def createWebpackConfig (fixturePath outputPath : Chars) (debug : Bool) : WebpackConfig :=
  { base := createBaseWebpackConfig debug
    entry := .single fixturePath
    outputFilename := basenameChars outputPath
    outputDir := dirnameChars outputPath
    outputPathinfo := if debug then some true else none }

/-- Input to the multi-entry builders: `{ fixturePath, outputPath }`. -/
structure WebpackFixtureInput where
  fixturePath : Chars
  outputPath : Chars
deriving DecidableEq, Inhabited, Repr

/-- `path.basename(outputPath, path.extname(outputPath))` — the entry key
derived from an output path: its basename without the extension. -/
def entryKeyOf (outputPath : Chars) : Chars :=
  basenameSuffixChars outputPath (extnameChars outputPath)

/-- JavaScript template interpolation of a numeric index. -/
def natDigits (n : Nat) : Chars := (toString n).data

/-- JavaScript object assignment `entry[entryName] = fixturePath`: replaces the
value in place when the key exists, appends otherwise. -/
def upsertEntry (m : List (Chars × Chars)) (k v : Chars) : List (Chars × Chars) :=
  if m.any (fun kv => decide (kv.1 = k)) then
    m.map (fun kv => if kv.1 = k then (k, v) else kv)
  else m ++ [(k, v)]

/-- State of the `fixtures.forEach` loop in `createMultiEntryWebpackConfig`:
the entry object built so far and the `seenKeys` set (as a list). -/
structure WebpackEntryState where
  entries : List (Chars × Chars)
  seen : List Chars
deriving DecidableEq, Repr

/-- One iteration of the loop: derive the key from the output filename, append
the zero-based index when the key was already seen, record and assign it. -/
def webpackEntryStep (index : Nat) (f : WebpackFixtureInput) (st : WebpackEntryState) :
    WebpackEntryState :=
  let base := entryKeyOf f.outputPath
  let entryName := if base ∈ st.seen then base ++ '_' :: natDigits index else base
  { entries := upsertEntry st.entries entryName f.fixturePath
    seen := entryName :: st.seen }

/-- The `fixtures.forEach((f, index) => ...)` loop of `createMultiEntryWebpackConfig`. -/
def webpackEntryLoop (st : WebpackEntryState) (index : Nat) :
    List WebpackFixtureInput → WebpackEntryState
  | [] => st
  | f :: rest => webpackEntryLoop (webpackEntryStep index f st) (index + 1) rest

/-- The entry map assembled by `createMultiEntryWebpackConfig` (collision-handling
variant, `runWebpack.mts` lines 76–91). -/
def webpackMultiEntry (fixtures : List WebpackFixtureInput) : List (Chars × Chars) :=
  (webpackEntryLoop ⟨[], []⟩ 0 fixtures).entries

/-- The sequence of final entry names the loop assigns, in input order. -/
def webpackEntryNamesGo (seen : List Chars) (index : Nat) :
    List WebpackFixtureInput → List Chars
  | [] => []
  | f :: rest =>
    let base := entryKeyOf f.outputPath
    let entryName := if base ∈ seen then base ++ '_' :: natDigits index else base
    entryName :: webpackEntryNamesGo (entryName :: seen) (index + 1) rest

/-- Final entry names assigned by the collision-handling builder, in input order. -/
def webpackEntryNames (fixtures : List WebpackFixtureInput) : List Chars :=
  webpackEntryNamesGo [] 0 fixtures

/-- `createMultiEntryWebpackConfig(fixtures, debug)` — collision-handling variant.
The `fixtures[0].outputPath` access throws on an empty list, modelled as `none`. -/
def createMultiEntryWebpackConfig (fixtures : List WebpackFixtureInput) (debug : Bool) :
    Option WebpackConfig :=
  match fixtures.head? with
  | none => none
  | some f0 => some
    { base := createBaseWebpackConfig debug
      entry := .multi (webpackMultiEntry fixtures)
      outputFilename := ("[name].js").data
      outputDir := dirnameChars f0.outputPath
      outputPathinfo := if debug then some true else none }

/-- Entry map of the second `createMultiEntryWebpackConfig` present in the
sources (the variant without collision handling, `runWebpack.mts` second copy,
lines 234–240): plain assignment, a repeated key overwrites. -/
def webpackMultiEntryNoDedup (fixtures : List WebpackFixtureInput) : List (Chars × Chars) :=
  fixtures.foldl (fun m f => upsertEntry m (entryKeyOf f.outputPath) f.fixturePath) []

/-- `createMultiEntryWebpackConfig(fixtures, debug)` — the variant without
collision handling; the remaining fields are spelled out inline in the source
with the same values as `createBaseWebpackConfig`. -/
def createMultiEntryWebpackConfigOld (fixtures : List WebpackFixtureInput) (debug : Bool) :
    Option WebpackConfig :=
  match fixtures.head? with
  | none => none
  | some f0 => some
    { base := createBaseWebpackConfig debug
      entry := .multi (webpackMultiEntryNoDedup fixtures)
      outputFilename := ("[name].js").data
      outputDir := dirnameChars f0.outputPath
      outputPathinfo := if debug then some true else none }

-- Sanity examples for the entry builders.
example : webpackMultiEntry
    [⟨("/d/w.fixture.js").data, ("/d/widget.js").data⟩,
     ⟨("/d/x.fixture.js").data, ("/d/widget.js").data⟩]
    = [(("widget").data, ("/d/w.fixture.js").data),
       (("widget_1").data, ("/d/x.fixture.js").data)] := by decide
example : webpackMultiEntryNoDedup
    [⟨("/d/w.fixture.js").data, ("/d/widget.js").data⟩,
     ⟨("/d/x.fixture.js").data, ("/d/widget.js").data⟩]
    = [(("widget").data, ("/d/x.fixture.js").data)] := by decide

/-! ### Entry-map lemmas -/

theorem webpackEntryNamesGo_length (L : List WebpackFixtureInput) :
    ∀ (seen : List Chars) (idx : Nat), (webpackEntryNamesGo seen idx L).length = L.length := by
  induction L with
  | nil => intro seen idx; rfl
  | cons f rest ih =>
    intro seen idx
    simp only [webpackEntryNamesGo, List.length_cons]
    rw [ih]

theorem upsertEntry_append_of_fresh (m : List (Chars × Chars)) (k v : Chars)
    (h : ∀ kv ∈ m, kv.1 ≠ k) : upsertEntry m k v = m ++ [(k, v)] := by
  unfold upsertEntry
  rw [if_neg]
  simp only [List.any_eq_true, decide_eq_true_eq, not_exists]
  intro kv hk
  exact h kv hk.1 hk.2

theorem webpackEntryLoop_entries (L : List WebpackFixtureInput) :
    ∀ (st : WebpackEntryState) (idx : Nat),
    (∀ kv ∈ st.entries, kv.1 ∈ st.seen) →
    (webpackEntryNamesGo st.seen idx L).Nodup →
    (∀ n ∈ webpackEntryNamesGo st.seen idx L, n ∉ st.seen) →
    (webpackEntryLoop st idx L).entries
      = st.entries ++ (webpackEntryNamesGo st.seen idx L).zip (L.map (·.fixturePath)) := by
  induction L with
  | nil => intro st idx _ _ _; simp [webpackEntryLoop, webpackEntryNamesGo]
  | cons f rest ih =>
    intro st idx hsub hnodup hfresh
    have hnames : webpackEntryNamesGo st.seen idx (f :: rest)
        = (if entryKeyOf f.outputPath ∈ st.seen
            then entryKeyOf f.outputPath ++ '_' :: natDigits idx
            else entryKeyOf f.outputPath)
          :: webpackEntryNamesGo
              ((if entryKeyOf f.outputPath ∈ st.seen
                then entryKeyOf f.outputPath ++ '_' :: natDigits idx
                else entryKeyOf f.outputPath) :: st.seen) (idx + 1) rest := rfl
    set name := if entryKeyOf f.outputPath ∈ st.seen
        then entryKeyOf f.outputPath ++ '_' :: natDigits idx
        else entryKeyOf f.outputPath with hnamedef
    have hmemname : name ∈ webpackEntryNamesGo st.seen idx (f :: rest) := by
      rw [hnames]; exact List.mem_cons_self _ _
    have hnamefresh : name ∉ st.seen := hfresh name hmemname
    have hupsert : upsertEntry st.entries name f.fixturePath
        = st.entries ++ [(name, f.fixturePath)] := by
      refine upsertEntry_append_of_fresh _ _ _ ?_
      intro kv hkv hk
      exact hnamefresh (hk ▸ hsub kv hkv)
    have hloop : webpackEntryLoop st idx (f :: rest)
        = webpackEntryLoop ⟨upsertEntry st.entries name f.fixturePath, name :: st.seen⟩
            (idx + 1) rest := rfl
    rw [hloop, hupsert]
    have htailnodup : (webpackEntryNamesGo (name :: st.seen) (idx + 1) rest).Nodup := by
      have := hnames ▸ hnodup
      exact (List.nodup_cons.mp this).2
    have hheadnotin : name ∉ webpackEntryNamesGo (name :: st.seen) (idx + 1) rest := by
      have := hnames ▸ hnodup
      exact (List.nodup_cons.mp this).1
    have htailfresh : ∀ n ∈ webpackEntryNamesGo (name :: st.seen) (idx + 1) rest,
        n ∉ name :: st.seen := by
      intro n hn
      intro hmem
      rcases List.mem_cons.mp hmem with h1 | h1
      · exact hheadnotin (h1 ▸ hn)
      · exact hfresh n (by rw [hnames]; exact List.mem_cons_of_mem _ hn) h1
    have hsub' : ∀ kv ∈ st.entries ++ [(name, f.fixturePath)], kv.1 ∈ name :: st.seen := by
      intro kv hkv
      rcases List.mem_append.mp hkv with h1 | h1
      · exact List.mem_cons_of_mem _ (hsub kv h1)
      · simp only [List.mem_singleton] at h1
        rw [h1]
        exact List.mem_cons_self _ _
    have := ih ⟨st.entries ++ [(name, f.fixturePath)], name :: st.seen⟩ (idx + 1)
        hsub' htailnodup htailfresh
    rw [this, hnames]
    simp [List.append_assoc]

theorem webpackEntryNamesGo_of_nodup (L : List WebpackFixtureInput) :
    ∀ (seen : List Chars) (idx : Nat),
    (L.map (fun f => entryKeyOf f.outputPath)).Nodup →
    (∀ f ∈ L, entryKeyOf f.outputPath ∉ seen) →
    webpackEntryNamesGo seen idx L = L.map (fun f => entryKeyOf f.outputPath) := by
  induction L with
  | nil => intro seen idx _ _; rfl
  | cons f rest ih =>
    intro seen idx hnodup hfresh
    rw [List.map_cons] at hnodup
    obtain ⟨hnotin, htail⟩ := List.nodup_cons.mp hnodup
    have hbase : entryKeyOf f.outputPath ∉ seen := hfresh f (List.mem_cons_self _ _)
    have hnames : webpackEntryNamesGo seen idx (f :: rest)
        = entryKeyOf f.outputPath
          :: webpackEntryNamesGo (entryKeyOf f.outputPath :: seen) (idx + 1) rest := by
      simp only [webpackEntryNamesGo, if_neg hbase]
    rw [hnames, List.map_cons]
    congr 1
    refine ih _ (idx + 1) htail ?_
    intro g hg
    intro hmem
    rcases List.mem_cons.mp hmem with h1 | h1
    · exact hnotin (h1 ▸ List.mem_map_of_mem _ hg)
    · exact hfresh g (List.mem_cons_of_mem _ hg) h1

theorem foldlUpsert_eq {α : Type} (key val : α → Chars) (L : List α) :
    ∀ (acc : List (Chars × Chars)),
    (∀ kv ∈ acc, kv.1 ∉ L.map key) → (L.map key).Nodup →
    L.foldl (fun m f => upsertEntry m (key f) (val f)) acc
      = acc ++ L.map (fun f => (key f, val f)) := by
  induction L with
  | nil => intro acc _ _; simp
  | cons f rest ih =>
    intro acc hdisj hnodup
    rw [List.map_cons] at hnodup
    obtain ⟨hnotin, htail⟩ := List.nodup_cons.mp hnodup
    have hkey : ∀ kv ∈ acc, kv.1 ≠ key f := by
      intro kv hkv hk
      exact hdisj kv hkv (by rw [List.map_cons, hk]; exact List.mem_cons_self _ _)
    rw [List.foldl_cons, upsertEntry_append_of_fresh _ _ _ hkey]
    have hdisj' : ∀ kv ∈ acc ++ [(key f, val f)], kv.1 ∉ rest.map key := by
      intro kv hkv
      rcases List.mem_append.mp hkv with h1 | h1
      · intro hmem
        exact hdisj kv h1 (by rw [List.map_cons]; exact List.mem_cons_of_mem _ hmem)
      · simp only [List.mem_singleton] at h1
        rw [h1]
        exact hnotin
    rw [ih _ hdisj' htail]
    simp [List.append_assoc]

/-! ### rspack (Rsbuild) and esbuild adapter models -/

/-- One Rsbuild environment configuration — the fields `createEnvironmentConfig`
and `createMultiEntryEnvironmentConfig` populate: `source.entry`,
`output.{externals,target,emitAssets,filename.js,distPath.root,distPath.js,minify}`
and `performance.chunkSplit.strategy`. -/
structure RsEnvironmentConfig where
  entry : List (Chars × Chars)
  externalsList : List (Chars × Chars)
  target : Chars
  emitAssets : Bool
  filenameJs : Chars
  distRoot : Chars
  distJs : Chars
  minify : Bool
  chunkSplitStrategy : Chars
deriving DecidableEq, Repr

/-- The `Record<string, EnvironmentConfig>` returned by the rspack config
builders: a `default` environment plus an optional `debug` environment. -/
structure RsEnvironments where
  dflt : RsEnvironmentConfig
  debugEnv : Option RsEnvironmentConfig
deriving DecidableEq, Repr

/-- `createEnvironmentConfig({ fixturePath, outputPath, debugOutputPath? })` from the
rspack adapter: single-fixture environments.  The `...(debugOutputPath && {...})`
truthiness spread is modelled by the `Option`. -/
def createEnvironmentConfig (fixturePath outputPath : Chars)
    (debugOutputPath : Option Chars) : RsEnvironments :=
  let envCfg : RsEnvironmentConfig :=
    { entry := [(("index").data, fixturePath)]
      externalsList := [(("react").data, ("React").data), (("react-dom").data, ("ReactDOM").data)]
      target := ("web").data
      emitAssets := false
      filenameJs := basenameChars outputPath
      distRoot := dirnameChars outputPath
      distJs := ("./").data
      minify := true
      chunkSplitStrategy := ("all-in-one").data }
  { dflt := envCfg
    debugEnv := debugOutputPath.map fun dbg =>
      { envCfg with filenameJs := basenameChars dbg, minify := false } }

/-- Input rows of `createMultiEntryEnvironmentConfig`:
`{ fixturePath, outputPath, debugOutputPath? }` (plus the carried name). -/
structure RsFixtureWithPaths where
  fixturePath : Chars
  name : Chars
  outputPath : Chars
  debugOutputPath : Option Chars
deriving DecidableEq, Inhabited, Repr

/-- `createMultiEntryEnvironmentConfig({ fixtures, debug })` from the rspack
adapter.  Its entry reduce performs plain assignment with **no** collision
handling; `fixtures[0].outputPath` on an empty list throws, modelled as `none`. -/
def createMultiEntryEnvironmentConfig (fixtures : List RsFixtureWithPaths) (debug : Bool) :
    Option RsEnvironments :=
  match fixtures.head? with
  | none => none
  | some f0 =>
    let outputDir := dirnameChars f0.outputPath
    let entry := fixtures.foldl
      (fun acc f => upsertEntry acc (entryKeyOf f.outputPath) f.fixturePath) []
    let envCfg : RsEnvironmentConfig :=
      { entry := entry
        externalsList := [(("react").data, ("React").data), (("react-dom").data, ("ReactDOM").data)]
        target := ("web").data
        emitAssets := false
        filenameJs := ("[name].js").data
        distRoot := outputDir
        distJs := ("./").data
        minify := true
        chunkSplitStrategy := ("all-in-one").data }
    if debug then
      let debugEntry := fixtures.foldl
        (fun acc f =>
          match f.debugOutputPath with
          | some dbg => upsertEntry acc (entryKeyOf dbg) f.fixturePath
          | none => acc) []
      some { dflt := envCfg
             debugEnv := some { envCfg with entry := debugEntry, minify := false } }
    else
      some { dflt := envCfg, debugEnv := none }

/-- rspack `buildFixture`: the returned `BuildResult` — paths derived before the
build, `debugOutputPath` spread in only when `debug` is set. -/
def rspackBuildFixtureResult (fixturePath : Chars) (debug : Bool) : BuildResult :=
  { name := none
    outputPath := rspackOutputPath fixturePath
    debugOutputPath := if debug then some (rspackDebugOutputPath fixturePath) else none }

/-- rspack `buildFixtures`: the `fixturesWithPaths` rows — per-fixture derived
paths computed up front (`debugOutputPath` is always computed here). -/
def rspackFixturesWithPaths (fixtures : List FixtureInput) : List RsFixtureWithPaths :=
  fixtures.map fun f =>
    { fixturePath := f.fixturePath
      name := f.name
      outputPath := rspackOutputPath f.fixturePath
      debugOutputPath := some (rspackDebugOutputPath f.fixturePath) }

/-- rspack `buildFixtures`: the returned results — one per input fixture, in
input order, echoing the pre-computed paths; `debugOutputPath` only when `debug`. -/
def rspackBuildFixturesResults (fixtures : List FixtureInput) (debug : Bool) : List BuildResult :=
  fixtures.map fun f =>
    { name := some f.name
      outputPath := rspackOutputPath f.fixturePath
      debugOutputPath := if debug then some (rspackDebugOutputPath f.fixturePath) else none }

/-- rspack `buildFixtures`: `path.dirname(fixtures[0].fixturePath)` — the root
directory handed to `createRsbuild`; throws on an empty list, modelled as `none`. -/
def rspackBatchRoot (fixtures : List FixtureInput) : Option Chars :=
  fixtures.head?.map fun f0 => dirnameChars f0.fixturePath

/-- The full `rsbuildConfig` object assembled by rspack `buildFixtures` before
the enhancer is applied: `{ root, mode, dev.progressBar, environments }`. -/
structure RsbuildConfig where
  root : Chars
  mode : Chars
  progressBar : Bool
  environments : RsEnvironments
deriving DecidableEq, Repr

/-- rspack `buildFixtures`: the default (pre-enhancer) `rsbuildConfig`. -/
def rspackBatchRsbuildConfig (fixtures : List FixtureInput) (debug : Bool) :
    Option RsbuildConfig :=
  match fixtures.head? with
  | none => none
  | some f0 =>
    (createMultiEntryEnvironmentConfig (rspackFixturesWithPaths fixtures) debug).map fun envs =>
      { root := dirnameChars f0.fixturePath
        mode := ("production").data
        progressBar := false
        environments := envs }

/-- rspack `buildFixtures`: the configuration actually passed to `createRsbuild`
is the enhancer's return value applied to the default configuration. -/
def rspackBatchConfigPassed (enhance : RsbuildConfig → RsbuildConfig)
    (fixtures : List FixtureInput) (debug : Bool) : Option RsbuildConfig :=
  (rspackBatchRsbuildConfig fixtures debug).map enhance

/-- esbuild `buildFixture` (from `createEsbuildBundler`): returns only
`outputPath`; the adapter never produces a debug output. -/
def esbuildBuildFixtureResult (fixturePath : Chars) : BuildResult :=
  { name := none
    outputPath := esbuildOutputPath fixturePath
    debugOutputPath := none }

/-- esbuild `buildFixtures`: one `{ name, outputPath }` per fixture, in input
order; no debug output. -/
def esbuildBuildFixturesResults (fixtures : List FixtureInput) : List BuildResult :=
  fixtures.map fun f =>
    { name := some f.name
      outputPath := esbuildOutputPath f.fixturePath
      debugOutputPath := none }

/-! ### C10 — agreement of the two webpack multi-entry builders -/

/-- C10 — counterexample: the two `createMultiEntryWebpackConfig` variants
disagree on a fixture list whose derived output *basenames* are pairwise
distinct (`a.js` vs `a.txt`) but whose entry keys (basenames without extension)
collide: the collision-handling variant keeps both entries (`a`, `a_1`), the
other overwrites. -/
theorem c10_counterexample :
    basenameChars (("/d/a.js").data) ≠ basenameChars (("/d/a.txt").data) ∧
    createMultiEntryWebpackConfig
        [⟨("/p/f1.js").data, ("/d/a.js").data⟩, ⟨("/p/f2.js").data, ("/d/a.txt").data⟩] false
      ≠ createMultiEntryWebpackConfigOld
        [⟨("/p/f1.js").data, ("/d/a.js").data⟩, ⟨("/p/f2.js").data, ("/d/a.txt").data⟩] false :=
  ⟨by decide, by decide⟩

set_option maxHeartbeats 1600000 in
/-- C10 (amended): the two webpack multi-entry configuration builders (with and
without collision handling) produce identical configurations — in particular
identical entry maps and output settings — for every fixture list whose derived
entry keys (output basenames without their extension) are pairwise distinct. -/
theorem c10_old_new_agreement (L : List WebpackFixtureInput) (debug : Bool)
    (h : (L.map (fun f => entryKeyOf f.outputPath)).Nodup) :
    createMultiEntryWebpackConfig L debug = createMultiEntryWebpackConfigOld L debug := by
  have hnames : webpackEntryNames L = L.map (fun f => entryKeyOf f.outputPath) :=
    webpackEntryNamesGo_of_nodup L [] 0 h (by intro f _; simp)
  have h1 : webpackMultiEntry L
      = [] ++ (webpackEntryNames L).zip (L.map (·.fixturePath)) := by
    refine webpackEntryLoop_entries L ⟨[], []⟩ 0 ?_ ?_ ?_
    · intro kv hkv; simp at hkv
    · show (webpackEntryNames L).Nodup
      rw [hnames]; exact h
    · intro n _; simp
  have h2 : webpackMultiEntryNoDedup L
      = [] ++ L.map (fun f => (entryKeyOf f.outputPath, f.fixturePath)) := by
    show L.foldl (fun m f => upsertEntry m (entryKeyOf f.outputPath) f.fixturePath) []
        = [] ++ L.map (fun f => (entryKeyOf f.outputPath, f.fixturePath))
    exact foldlUpsert_eq (fun f => entryKeyOf f.outputPath) (fun f => f.fixturePath) L []
      (by intro kv hkv; simp at hkv) h
  have hentry : webpackMultiEntry L = webpackMultiEntryNoDedup L := by
    rw [h1, h2, hnames, List.zip_map']
  unfold createMultiEntryWebpackConfig createMultiEntryWebpackConfigOld
  cases L.head? with
  | none => rfl
  | some f0 => simp [hentry]

/-- C10 (amended) — witness: two fixtures with distinct entry keys. -/
theorem c10_old_new_agreement_witness :
    (([⟨("/p/a.fixture.js").data, ("/d/a.output.js").data⟩,
       ⟨("/p/b.fixture.js").data, ("/d/b.output.js").data⟩] :
        List WebpackFixtureInput).map (fun f => entryKeyOf f.outputPath)).Nodup ∧
    createMultiEntryWebpackConfig
        [⟨("/p/a.fixture.js").data, ("/d/a.output.js").data⟩,
         ⟨("/p/b.fixture.js").data, ("/d/b.output.js").data⟩] true
      = createMultiEntryWebpackConfigOld
        [⟨("/p/a.fixture.js").data, ("/d/a.output.js").data⟩,
         ⟨("/p/b.fixture.js").data, ("/d/b.output.js").data⟩] true :=
  ⟨by decide, c10_old_new_agreement _ true (by decide)⟩

/-! ### C3 / C4 — entry-key assembly and tie-break -/

theorem webpackEntryNamesGo_getD (L : List WebpackFixtureInput) :
    ∀ (seen : List Chars) (idx i : Nat), i < L.length →
    (webpackEntryNamesGo seen idx L).getD i []
      = (if entryKeyOf ((L.getD i default).outputPath)
              ∈ (webpackEntryNamesGo seen idx L).take i
            ∨ entryKeyOf ((L.getD i default).outputPath) ∈ seen
         then entryKeyOf ((L.getD i default).outputPath) ++ '_' :: natDigits (idx + i)
         else entryKeyOf ((L.getD i default).outputPath)) := by
  induction L with
  | nil => intro seen idx i hi; simp at hi
  | cons f rest ih =>
    intro seen idx i hi
    have hnames : webpackEntryNamesGo seen idx (f :: rest)
        = (if entryKeyOf f.outputPath ∈ seen
              then entryKeyOf f.outputPath ++ '_' :: natDigits idx
              else entryKeyOf f.outputPath)
          :: webpackEntryNamesGo
              ((if entryKeyOf f.outputPath ∈ seen
                then entryKeyOf f.outputPath ++ '_' :: natDigits idx
                else entryKeyOf f.outputPath) :: seen) (idx + 1) rest := rfl
    cases i with
    | zero =>
      rw [hnames, List.getD_cons_zero, List.getD_cons_zero]
      simp
    | succ j =>
      have hj : j < rest.length := Nat.lt_of_succ_lt_succ hi
      rw [hnames, List.getD_cons_succ, List.getD_cons_succ]
      rw [ih _ (idx + 1) j hj]
      have hidx : idx + 1 + j = idx + (j + 1) := by omega
      rw [hidx]
      have hcond : (entryKeyOf ((rest.getD j default).outputPath)
              ∈ (webpackEntryNamesGo
                  ((if entryKeyOf f.outputPath ∈ seen
                    then entryKeyOf f.outputPath ++ '_' :: natDigits idx
                    else entryKeyOf f.outputPath) :: seen) (idx + 1) rest).take j
            ∨ entryKeyOf ((rest.getD j default).outputPath)
              ∈ (if entryKeyOf f.outputPath ∈ seen
                  then entryKeyOf f.outputPath ++ '_' :: natDigits idx
                  else entryKeyOf f.outputPath) :: seen)
          ↔ (entryKeyOf ((rest.getD j default).outputPath)
              ∈ ((if entryKeyOf f.outputPath ∈ seen
                    then entryKeyOf f.outputPath ++ '_' :: natDigits idx
                    else entryKeyOf f.outputPath)
                  :: webpackEntryNamesGo
                    ((if entryKeyOf f.outputPath ∈ seen
                      then entryKeyOf f.outputPath ++ '_' :: natDigits idx
                      else entryKeyOf f.outputPath) :: seen) (idx + 1) rest).take (j + 1)
            ∨ entryKeyOf ((rest.getD j default).outputPath) ∈ seen) := by
        rw [List.take_succ_cons]
        simp only [List.mem_cons]
        tauto
      rw [if_congr hcond rfl rfl]

/-- Final entry names have one name per input fixture. -/
theorem webpackEntryNames_length (L : List WebpackFixtureInput) :
    (webpackEntryNames L).length = L.length :=
  webpackEntryNamesGo_length L [] 0

/-- Characterization of the i-th final entry name: the derived key, with the
zero-based input index appended exactly when the key was already seen. -/
theorem webpackEntryNames_getD (L : List WebpackFixtureInput) (i : Nat) (hi : i < L.length) :
    (webpackEntryNames L).getD i []
      = (if entryKeyOf ((L.getD i default).outputPath) ∈ (webpackEntryNames L).take i
         then entryKeyOf ((L.getD i default).outputPath) ++ '_' :: natDigits i
         else entryKeyOf ((L.getD i default).outputPath)) := by
  have h := webpackEntryNamesGo_getD L [] 0 i hi
  simpa [webpackEntryNames] using h

/-- C3 — counterexample: the rspack batch path has no collision handling.  Two
fixtures whose derived output basenames are both `w.output.js` get the same
entry key `w.output`; the assembled entry map contains a single entry (the
second fixture silently overwrote the first) instead of one entry per fixture
with an index-disambiguated key. -/
theorem c3_counterexample :
    (createMultiEntryEnvironmentConfig
        (rspackFixturesWithPaths
          [⟨("/a/w.fixture.js").data, ("w1").data⟩, ⟨("/b/w.fixture.js").data, ("w2").data⟩])
        false).map (fun envs => envs.dflt.entry)
      = some [(("w.output").data, ("/b/w.fixture.js").data)] ∧
    ([⟨("/a/w.fixture.js").data, ("w1").data⟩,
      ⟨("/b/w.fixture.js").data, ("w2").data⟩] : List FixtureInput).length = 2 :=
  ⟨by decide, rfl⟩

set_option maxHeartbeats 1600000 in
/-- C3 (amended): in the webpack collision-handling batch builder, each
fixture's entry key is its derived output basename without its extension, with
the fixture's zero-based input index appended when that key was already seen
(in input order); provided the resulting final keys never collide again, the
assembled entry map has exactly one entry per fixture, in input order, with
pairwise-distinct keys.  (The rspack batch builder and the second webpack
variant perform no disambiguation: a colliding key overwrites the earlier
entry — see the counterexample.) -/
theorem c3_entry_key_assembly (L : List WebpackFixtureInput)
    (h : (webpackEntryNames L).Nodup) :
    webpackMultiEntry L = (webpackEntryNames L).zip (L.map (·.fixturePath)) ∧
    (webpackMultiEntry L).length = L.length ∧
    ((webpackMultiEntry L).map Prod.fst).Nodup ∧
    (∀ i, i < L.length → (webpackEntryNames L).getD i []
      = (if entryKeyOf ((L.getD i default).outputPath) ∈ (webpackEntryNames L).take i
         then entryKeyOf ((L.getD i default).outputPath) ++ '_' :: natDigits i
         else entryKeyOf ((L.getD i default).outputPath))) := by
  have hmain : webpackMultiEntry L
      = [] ++ (webpackEntryNames L).zip (L.map (·.fixturePath)) := by
    refine webpackEntryLoop_entries L ⟨[], []⟩ 0 ?_ ?_ ?_
    · intro kv hkv; simp at hkv
    · exact h
    · intro n _; simp
  rw [List.nil_append] at hmain
  have hlen : (webpackEntryNames L).length = L.length := webpackEntryNames_length L
  refine ⟨hmain, ?_, ?_, ?_⟩
  · rw [hmain, List.length_zip, hlen, List.length_map, Nat.min_self]
  · rw [hmain, List.map_fst_zip]
    · exact h
    · rw [hlen, List.length_map]
  · intro i hi
    exact webpackEntryNames_getD L i hi

/-- C3 (amended) — witness: a batch with one collision (`widget`, `widget_1`). -/
theorem c3_entry_key_assembly_witness :
    (webpackEntryNames
        [⟨("/d/w.fixture.js").data, ("/d/widget.js").data⟩,
         ⟨("/d/x.fixture.js").data, ("/d/widget.js").data⟩]).Nodup ∧
    (webpackMultiEntry
        [⟨("/d/w.fixture.js").data, ("/d/widget.js").data⟩,
         ⟨("/d/x.fixture.js").data, ("/d/widget.js").data⟩]
      = (webpackEntryNames
          [⟨("/d/w.fixture.js").data, ("/d/widget.js").data⟩,
           ⟨("/d/x.fixture.js").data, ("/d/widget.js").data⟩]).zip
          (([⟨("/d/w.fixture.js").data, ("/d/widget.js").data⟩,
             ⟨("/d/x.fixture.js").data, ("/d/widget.js").data⟩] :
              List WebpackFixtureInput).map (·.fixturePath)) ∧
      (webpackMultiEntry
        [⟨("/d/w.fixture.js").data, ("/d/widget.js").data⟩,
         ⟨("/d/x.fixture.js").data, ("/d/widget.js").data⟩]).length
        = ([⟨("/d/w.fixture.js").data, ("/d/widget.js").data⟩,
            ⟨("/d/x.fixture.js").data, ("/d/widget.js").data⟩] :
             List WebpackFixtureInput).length ∧
      ((webpackMultiEntry
        [⟨("/d/w.fixture.js").data, ("/d/widget.js").data⟩,
         ⟨("/d/x.fixture.js").data, ("/d/widget.js").data⟩]).map Prod.fst).Nodup ∧
      (∀ i, i < ([⟨("/d/w.fixture.js").data, ("/d/widget.js").data⟩,
                  ⟨("/d/x.fixture.js").data, ("/d/widget.js").data⟩] :
                   List WebpackFixtureInput).length →
        (webpackEntryNames
          [⟨("/d/w.fixture.js").data, ("/d/widget.js").data⟩,
           ⟨("/d/x.fixture.js").data, ("/d/widget.js").data⟩]).getD i []
          = (if entryKeyOf ((([⟨("/d/w.fixture.js").data, ("/d/widget.js").data⟩,
                              ⟨("/d/x.fixture.js").data, ("/d/widget.js").data⟩] :
                               List WebpackFixtureInput).getD i default).outputPath)
                ∈ (webpackEntryNames
                    [⟨("/d/w.fixture.js").data, ("/d/widget.js").data⟩,
                     ⟨("/d/x.fixture.js").data, ("/d/widget.js").data⟩]).take i
             then entryKeyOf ((([⟨("/d/w.fixture.js").data, ("/d/widget.js").data⟩,
                                ⟨("/d/x.fixture.js").data, ("/d/widget.js").data⟩] :
                                 List WebpackFixtureInput).getD i default).outputPath)
                    ++ '_' :: natDigits i
             else entryKeyOf ((([⟨("/d/w.fixture.js").data, ("/d/widget.js").data⟩,
                                ⟨("/d/x.fixture.js").data, ("/d/widget.js").data⟩] :
                                 List WebpackFixtureInput).getD i default).outputPath)))) :=
  ⟨by decide, c3_entry_key_assembly _ (by decide)⟩

/-- C4 — counterexample: the appended disambiguator is the colliding fixture's
zero-based input *index*, not a collision counter.  With an unrelated fixture
between the two `widget` fixtures, the second-seen `widget` receives the key
`widget_2`, not `widget_1`, so the assigned key is not independent of the
positions of unrelated fixtures. -/
theorem c4_counterexample :
    webpackEntryNames
        [⟨("/p/w1.fixture.js").data, ("/d/widget.js").data⟩,
         ⟨("/p/o.fixture.js").data, ("/d/other.js").data⟩,
         ⟨("/p/w2.fixture.js").data, ("/d/widget.js").data⟩]
      = [("widget").data, ("other").data, ("widget_2").data] ∧
    ("widget_2").data ≠ ("widget_1").data :=
  ⟨by decide, by decide⟩

/-- C4 (amended): when the fixtures at positions `p < q` share the derived key
`K` and no other fixture before `q` ends up with the key `K`, the first-seen
fixture receives the plain key `K` and the second-seen fixture receives
`K_<q>`, where `q` is its zero-based input index — the key therefore depends on
the colliding fixture's index and changes when repositioning unrelated fixtures
changes that index. -/
theorem c4_collision_tiebreak (L : List WebpackFixtureInput) (p q : Nat) (K : Chars)
    (hq : q < L.length) (hpq : p < q)
    (hkp : entryKeyOf ((L.getD p default).outputPath) = K)
    (hkq : entryKeyOf ((L.getD q default).outputPath) = K)
    (honly : ∀ j, j < q → j ≠ p → (webpackEntryNames L).getD j [] ≠ K) :
    (webpackEntryNames L).getD p [] = K ∧
    (webpackEntryNames L).getD q [] = K ++ '_' :: natDigits q := by
  have hlen : (webpackEntryNames L).length = L.length := webpackEntryNames_length L
  have hp : p < L.length := Nat.lt_trans hpq hq
  have hplen : p < (webpackEntryNames L).length := by rw [hlen]; exact hp
  have hnotmem : K ∉ (webpackEntryNames L).take p := by
    intro hmem
    obtain ⟨j, hj, hjeq⟩ := List.getElem_of_mem hmem
    have hjp : j < p := by
      have := hj
      rw [List.length_take] at this
      exact Nat.lt_of_lt_of_le this (Nat.min_le_left _ _)
    have hjlen : j < (webpackEntryNames L).length := Nat.lt_trans hjp hplen
    have hjval : (webpackEntryNames L).getD j [] = K := by
      rw [List.getD_eq_getElem _ _ hjlen, ← List.getElem_take (webpackEntryNames L), hjeq]
    exact honly j (Nat.lt_trans hjp hpq) (Nat.ne_of_lt hjp) hjval
  have hnamep : (webpackEntryNames L).getD p [] = K := by
    rw [webpackEntryNames_getD L p hp, hkp, if_neg hnotmem]
  refine ⟨hnamep, ?_⟩
  have hmem : K ∈ (webpackEntryNames L).take q := by
    have hptake : p < ((webpackEntryNames L).take q).length := by
      rw [List.length_take]
      exact Nat.lt_min.mpr ⟨hpq, hplen⟩
    have : ((webpackEntryNames L).take q)[p] = K := by
      rw [List.getElem_take (webpackEntryNames L)]
      rw [← List.getD_eq_getElem _ ([] : Chars) hplen]
      exact hnamep
    rw [← this]
    exact List.getElem_mem hptake
  rw [webpackEntryNames_getD L q hq, hkq, if_pos hmem]

/-- C4 (amended) — witness: `widget` fixtures at indices 0 and 2 with an
unrelated fixture between them; the keys are `widget` and `widget_2`. -/
theorem c4_collision_tiebreak_witness :
    (2 < ([⟨("/p/w1.fixture.js").data, ("/d/widget.js").data⟩,
           ⟨("/p/o.fixture.js").data, ("/d/other.js").data⟩,
           ⟨("/p/w2.fixture.js").data, ("/d/widget.js").data⟩] :
            List WebpackFixtureInput).length ∧ 0 < 2) ∧
    ((webpackEntryNames
        [⟨("/p/w1.fixture.js").data, ("/d/widget.js").data⟩,
         ⟨("/p/o.fixture.js").data, ("/d/other.js").data⟩,
         ⟨("/p/w2.fixture.js").data, ("/d/widget.js").data⟩]).getD 0 [] = ("widget").data ∧
      (webpackEntryNames
        [⟨("/p/w1.fixture.js").data, ("/d/widget.js").data⟩,
         ⟨("/p/o.fixture.js").data, ("/d/other.js").data⟩,
         ⟨("/p/w2.fixture.js").data, ("/d/widget.js").data⟩]).getD 2 []
        = ("widget").data ++ '_' :: natDigits 2) :=
  ⟨⟨by decide, by decide⟩,
    c4_collision_tiebreak _ 0 2 (("widget").data) (by decide) (by decide) (by decide) (by decide)
      (by
        intro j hj hjne
        match j with
        | 0 => exact absurd rfl hjne
        | 1 => decide
        | j + 2 => omega)⟩

/-- C9: with a non-empty fixtures list (the stated caller invariant), every
first-fixture access in the batch builders is in bounds: the webpack
multi-entry builders, the rspack multi-entry environment builder, the rspack
batch root-directory derivation and the assembled rspack batch configuration
all produce a value (the missing-first-fixture branch, modelled by `none`, is
unreachable). -/
theorem c9_first_fixture_safety (wfixtures : List WebpackFixtureInput)
    (rsf : List RsFixtureWithPaths) (fixtures : List FixtureInput) (debug : Bool)
    (hw : wfixtures ≠ []) (hr : rsf ≠ []) (hf : fixtures ≠ []) :
    (createMultiEntryWebpackConfig wfixtures debug).isSome = true ∧
    (createMultiEntryWebpackConfigOld wfixtures debug).isSome = true ∧
    (createMultiEntryEnvironmentConfig rsf debug).isSome = true ∧
    (rspackBatchRoot fixtures).isSome = true ∧
    (rspackBatchRsbuildConfig fixtures debug).isSome = true := by
  obtain ⟨w0, wrest, rfl⟩ := List.exists_cons_of_ne_nil hw
  obtain ⟨r0, rrest, rfl⟩ := List.exists_cons_of_ne_nil hr
  obtain ⟨f0, frest, rfl⟩ := List.exists_cons_of_ne_nil hf
  refine ⟨rfl, rfl, ?_, rfl, ?_⟩
  · unfold createMultiEntryEnvironmentConfig
    cases debug <;> simp
  · unfold rspackBatchRsbuildConfig
    simp only [List.head?_cons]
    have henv : (createMultiEntryEnvironmentConfig
        (rspackFixturesWithPaths (f0 :: frest)) debug).isSome = true := by
      unfold rspackFixturesWithPaths createMultiEntryEnvironmentConfig
      cases debug <;> simp
    obtain ⟨envs, henv2⟩ := Option.isSome_iff_exists.mp henv
    rw [henv2]
    rfl

/-- C9 — witness: a singleton batch. -/
theorem c9_first_fixture_safety_witness :
    (([⟨("/p/a.fixture.js").data, ("/d/a.output.js").data⟩] :
        List WebpackFixtureInput) ≠ [] ∧
      ([⟨("/p/a.fixture.js").data, ("n").data, ("/d/a.output.js").data, none⟩] :
        List RsFixtureWithPaths) ≠ [] ∧
      ([⟨("/p/a.fixture.js").data, ("n").data⟩] : List FixtureInput) ≠ []) ∧
    ((createMultiEntryWebpackConfig
        [⟨("/p/a.fixture.js").data, ("/d/a.output.js").data⟩] true).isSome = true ∧
      (createMultiEntryWebpackConfigOld
        [⟨("/p/a.fixture.js").data, ("/d/a.output.js").data⟩] true).isSome = true ∧
      (createMultiEntryEnvironmentConfig
        [⟨("/p/a.fixture.js").data, ("n").data, ("/d/a.output.js").data, none⟩] true).isSome
        = true ∧
      (rspackBatchRoot [⟨("/p/a.fixture.js").data, ("n").data⟩]).isSome = true ∧
      (rspackBatchRsbuildConfig [⟨("/p/a.fixture.js").data, ("n").data⟩] true).isSome
        = true) :=
  ⟨⟨by decide, by decide, by decide⟩,
    c9_first_fixture_safety _ _ _ true (by decide) (by decide) (by decide)⟩

/-! ### C5 / C6 — debug-output presence and batch fan-out -/

/-- C5: `debugOutputPath` is present iff debug was requested and the backend
supports it.  rspack (single and batch) yields it exactly when `debug` is set;
esbuild, which does not support debug output, never yields it — in particular
no build invoked with `debug: false` yields a `debugOutputPath`. -/
theorem c5_debug_presence :
    (∀ (fixturePath : Chars) (debug : Bool),
      (rspackBuildFixtureResult fixturePath debug).debugOutputPath.isSome = debug) ∧
    (∀ (fixtures : List FixtureInput) (debug : Bool) (r : BuildResult),
      r ∈ rspackBuildFixturesResults fixtures debug → r.debugOutputPath.isSome = debug) ∧
    (∀ fixturePath : Chars, (esbuildBuildFixtureResult fixturePath).debugOutputPath = none) ∧
    (∀ (fixtures : List FixtureInput) (r : BuildResult),
      r ∈ esbuildBuildFixturesResults fixtures → r.debugOutputPath = none) := by
  refine ⟨?_, ?_, ?_, ?_⟩
  · intro fp debug; cases debug <;> rfl
  · intro fixtures debug r hr
    unfold rspackBuildFixturesResults at hr
    obtain ⟨f, _, rfl⟩ := List.mem_map.mp hr
    cases debug <;> rfl
  · intro fp; rfl
  · intro fixtures r hr
    unfold esbuildBuildFixturesResults at hr
    obtain ⟨f, _, rfl⟩ := List.mem_map.mp hr
    rfl

/-- C5 — witness: a concrete rspack batch result with `debug: true` carries a
`debugOutputPath`; the same fixture with `debug: false` carries none. -/
theorem c5_debug_presence_witness :
    ((⟨some ("n").data, rspackOutputPath ("/p/a.fixture.js").data,
        some (rspackDebugOutputPath ("/p/a.fixture.js").data)⟩ : BuildResult)
      ∈ rspackBuildFixturesResults [⟨("/p/a.fixture.js").data, ("n").data⟩] true) ∧
    (⟨some ("n").data, rspackOutputPath ("/p/a.fixture.js").data,
        some (rspackDebugOutputPath ("/p/a.fixture.js").data)⟩ :
        BuildResult).debugOutputPath.isSome = true ∧
    (rspackBuildFixtureResult ("/p/a.fixture.js").data false).debugOutputPath.isSome = false :=
  ⟨by decide,
    c5_debug_presence.2.1 [⟨("/p/a.fixture.js").data, ("n").data⟩] true _ (by decide),
    c5_debug_presence.1 ("/p/a.fixture.js").data false⟩

/-- C6: the rspack batch path returns one `BuildResult` per input fixture, in
input order, carrying that fixture's name and the deterministically
pre-computed paths (the result list is a pure function of the inputs — nothing
is read back from the backend); the batch's shared output directory is the
directory of the first fixture's derived `outputPath`, for the rspack and the
webpack multi-entry configurations alike. -/
theorem c6_batch_fanout (fixtures : List FixtureInput) (debug : Bool) (hne : fixtures ≠ []) :
    (rspackBuildFixturesResults fixtures debug).length = fixtures.length ∧
    (∀ i, i < fixtures.length →
      (rspackBuildFixturesResults fixtures debug).getD i default
        = { name := some ((fixtures.getD i default).name)
            outputPath := rspackOutputPath ((fixtures.getD i default).fixturePath)
            debugOutputPath := if debug then
              some (rspackDebugOutputPath ((fixtures.getD i default).fixturePath))
              else none }) ∧
    ((createMultiEntryEnvironmentConfig (rspackFixturesWithPaths fixtures) debug).map
        (fun envs => envs.dflt.distRoot))
      = some (dirnameChars (rspackOutputPath ((fixtures.headD default).fixturePath))) ∧
    (∀ (winputs : List WebpackFixtureInput) (w0 : WebpackFixtureInput),
      winputs.head? = some w0 →
      (createMultiEntryWebpackConfig winputs debug).map (fun c => c.outputDir)
        = some (dirnameChars w0.outputPath)) := by
  obtain ⟨f0, rest, rfl⟩ := List.exists_cons_of_ne_nil hne
  refine ⟨by simp [rspackBuildFixturesResults], ?_, ?_, ?_⟩
  · intro i hi
    have hi' : i < (rspackBuildFixturesResults (f0 :: rest) debug).length := by
      simpa [rspackBuildFixturesResults] using hi
    rw [List.getD_eq_getElem _ _ hi', List.getD_eq_getElem _ _ hi]
    unfold rspackBuildFixturesResults
    rw [List.getElem_map]
  · cases debug <;>
      simp [createMultiEntryEnvironmentConfig, rspackFixturesWithPaths, List.headD]
  · intro winputs w0 hw
    unfold createMultiEntryWebpackConfig
    rw [hw]
    rfl

/-- C6 — witness: a concrete two-fixture batch in debug mode. -/
theorem c6_batch_fanout_witness :
    (([⟨("/p/a.fixture.js").data, ("na").data⟩, ⟨("/p/b.fixture.js").data, ("nb").data⟩] :
        List FixtureInput) ≠ []) ∧
    (rspackBuildFixturesResults
        [⟨("/p/a.fixture.js").data, ("na").data⟩, ⟨("/p/b.fixture.js").data, ("nb").data⟩]
        true).length
      = ([⟨("/p/a.fixture.js").data, ("na").data⟩, ⟨("/p/b.fixture.js").data, ("nb").data⟩] :
          List FixtureInput).length ∧
    ((createMultiEntryEnvironmentConfig
        (rspackFixturesWithPaths
          [⟨("/p/a.fixture.js").data, ("na").data⟩, ⟨("/p/b.fixture.js").data, ("nb").data⟩])
        true).map (fun envs => envs.dflt.distRoot))
      = some (dirnameChars (rspackOutputPath
          ((([⟨("/p/a.fixture.js").data, ("na").data⟩,
              ⟨("/p/b.fixture.js").data, ("nb").data⟩] :
               List FixtureInput).headD default).fixturePath))) :=
  ⟨by decide,
    (c6_batch_fanout _ true (by decide)).1,
    (c6_batch_fanout _ true (by decide)).2.2.1⟩

/-! ### C7 / C8 — error propagation and the enhancer contract -/

/-- The two ways `runWebpack` / `runWebpackMultiEntry` reject: the compiler
callback error, or the compilation diagnostics joined into one message. -/
inductive WebpackRejection where
  | runError (err : Chars)
  | compilationErrors (message : Chars)
deriving DecidableEq, Repr

/-- The settlement of the promise inside `runWebpack`
(`runWebpack.mts` lines 125–138): `if (err) reject(err); if (result &&
result.hasErrors()) reject(result.compilation.errors.join('\n'));
resolve(null)` — the first settlement wins.  `result` is modelled by its
`compilation.errors` list, `hasErrors()` by that list being non-empty. -/
def runWebpackOutcome (err : Option Chars) (result : Option (List Chars)) :
    Except WebpackRejection Unit :=
  match err with
  | some e => Except.error (WebpackRejection.runError e)
  | none =>
    match result with
    | some errors =>
      if errors ≠ [] then
        Except.error (WebpackRejection.compilationErrors (List.intercalate ['\n'] errors))
      else Except.ok ()
    | none => Except.ok ()

/-- The settlement of the promise inside `runWebpackMultiEntry`
(`runWebpack.mts` lines 154–167) — the callback is identical to `runWebpack`'s. -/
def runWebpackMultiEntryOutcome (err : Option Chars) (result : Option (List Chars)) :
    Except WebpackRejection Unit :=
  match err with
  | some e => Except.error (WebpackRejection.runError e)
  | none =>
    match result with
    | some errors =>
      if errors ≠ [] then
        Except.error (WebpackRejection.compilationErrors (List.intercalate ['\n'] errors))
      else Except.ok ()
    | none => Except.ok ()

/-- Modelled from the spec: the webpack `buildFixtures` wrapper
(`createWebpackBundler.mts` is not among the sources) awaits
`runWebpackMultiEntry` and only then fans out one result per fixture (§4.3
steps 5–6); a rejection therefore propagates as the rejection of the whole
batch with no per-fixture results. -/
def webpackBuildFixturesOutcome (fixtures : List FixtureInput) (debug : Bool)
    (err : Option Chars) (result : Option (List Chars)) :
    Except WebpackRejection (List BuildResult) :=
  match runWebpackMultiEntryOutcome err result with
  | Except.error e => Except.error e
  | Except.ok _ => Except.ok (fixtures.map fun f =>
      { name := some f.name
        outputPath := webpackOutputPath f.fixturePath
        debugOutputPath :=
          if debug then some (webpackDebugOutputPath f.fixturePath) else none })

/-- C7: a webpack run (single or multi-entry — their callbacks are identical)
resolves iff the compiler reported no error and the compilation result has no
errors; a compiler error rejects with that error; non-empty diagnostics reject
with the single aggregated message joining all compilation errors with
newlines; and a rejected multi-entry run fails the whole batch — no per-fixture
results are produced. -/
theorem c7_error_propagation :
    (∀ (err : Option Chars) (result : Option (List Chars)),
      runWebpackOutcome err result = Except.ok () ↔
        (err = none ∧ ∀ errors ∈ result, errors = ([] : List Chars))) ∧
    (∀ (e : Chars) (result : Option (List Chars)),
      runWebpackOutcome (some e) result
        = Except.error (WebpackRejection.runError e)) ∧
    (∀ errors : List Chars, errors ≠ [] →
      runWebpackOutcome none (some errors)
        = Except.error (WebpackRejection.compilationErrors
            (List.intercalate ['\n'] errors))) ∧
    (∀ (err : Option Chars) (result : Option (List Chars)),
      runWebpackMultiEntryOutcome err result = runWebpackOutcome err result) ∧
    (∀ (fixtures : List FixtureInput) (debug : Bool) (err : Option Chars)
        (result : Option (List Chars)) (e : WebpackRejection),
      runWebpackMultiEntryOutcome err result = Except.error e →
      webpackBuildFixturesOutcome fixtures debug err result = Except.error e) := by
  refine ⟨?_, ?_, ?_, ?_, ?_⟩
  · intro err result
    cases err with
    | some e => simp [runWebpackOutcome]
    | none =>
      cases result with
      | none => simp [runWebpackOutcome]
      | some errors =>
        cases errors with
        | nil => simp [runWebpackOutcome]
        | cons a l => simp [runWebpackOutcome]
  · intro e result; rfl
  · intro errors h
    simp [runWebpackOutcome, h]
  · intro err result; rfl
  · intro fixtures debug err result e h
    unfold webpackBuildFixturesOutcome
    rw [h]

/-- C7 — witness: two diagnostics reject with the newline-joined aggregate, and
the batch yields no results. -/
theorem c7_error_propagation_witness :
    ([("err one").data, ("err two").data] ≠ ([] : List (List Char))) ∧
    runWebpackOutcome none (some [("err one").data, ("err two").data])
      = Except.error (WebpackRejection.compilationErrors
          (List.intercalate ['\n'] [("err one").data, ("err two").data])) ∧
    webpackBuildFixturesOutcome [⟨("/p/a.fixture.js").data, ("n").data⟩] false
        none (some [("err one").data, ("err two").data])
      = Except.error (WebpackRejection.compilationErrors
          (List.intercalate ['\n'] [("err one").data, ("err two").data])) :=
  ⟨by decide,
    c7_error_propagation.2.2.1 [("err one").data, ("err two").data] (by decide),
    c7_error_propagation.2.2.2.2 [⟨("/p/a.fixture.js").data, ("n").data⟩] false
      none (some [("err one").data, ("err two").data]) _ rfl⟩

/-- `runWebpack`: the configuration handed to `webpack(...)` is
`enhanceConfig(createWebpackConfig(fixturePath, outputPath, debug))`. -/
def runWebpackCompilerConfig (enhance : WebpackConfig → WebpackConfig)
    (fixturePath outputPath : Chars) (debug : Bool) : WebpackConfig :=
  enhance (createWebpackConfig fixturePath outputPath debug)

/-- `runWebpackMultiEntry`: the configuration handed to `webpack(...)` is
`enhanceConfig(createMultiEntryWebpackConfig(fixtures, debug))`. -/
def runWebpackMultiEntryCompilerConfig (enhance : WebpackConfig → WebpackConfig)
    (fixtures : List WebpackFixtureInput) (debug : Bool) : Option WebpackConfig :=
  (createMultiEntryWebpackConfig fixtures debug).map enhance

/-- C8: the enhancer receives the single fully assembled default configuration
(for a batch, the whole batched configuration) and its return value — not the
original default — is what reaches the backend.  The equations hold for every
enhancer, which pins the application count to exactly one: a pipeline applying
the enhancer zero times or twice would violate them for some enhancer. -/
theorem c8_enhancer_contract :
    (∀ (enhance : WebpackConfig → WebpackConfig) (fixturePath outputPath : Chars)
        (debug : Bool),
      runWebpackCompilerConfig enhance fixturePath outputPath debug
        = enhance (createWebpackConfig fixturePath outputPath debug)) ∧
    (∀ (enhance : WebpackConfig → WebpackConfig) (fixturePath outputPath : Chars)
        (debug : Bool),
      runWebpackCompilerConfig enhance fixturePath outputPath debug
        = enhance (runWebpackCompilerConfig (fun c => c) fixturePath outputPath debug)) ∧
    (∀ (enhance : WebpackConfig → WebpackConfig) (fixtures : List WebpackFixtureInput)
        (debug : Bool),
      runWebpackMultiEntryCompilerConfig enhance fixtures debug
        = Option.map enhance
            (runWebpackMultiEntryCompilerConfig (fun c => c) fixtures debug)) ∧
    (∀ (enhance : RsbuildConfig → RsbuildConfig) (fixtures : List FixtureInput)
        (debug : Bool),
      rspackBatchConfigPassed enhance fixtures debug
        = Option.map enhance (rspackBatchConfigPassed (fun c => c) fixtures debug)) := by
  refine ⟨?_, ?_, ?_, ?_⟩
  · intro enhance fixturePath outputPath debug; rfl
  · intro enhance fixturePath outputPath debug; rfl
  · intro enhance fixtures debug
    unfold runWebpackMultiEntryCompilerConfig
    cases createMultiEntryWebpackConfig fixtures debug <;> rfl
  · intro enhance fixtures debug
    unfold rspackBatchConfigPassed
    cases rspackBatchRsbuildConfig fixtures debug <;> rfl

/-! ### C1 — batch/single byte equivalence for the webpack adapter -/

/-- One file emitted by the backend: directory, filename, contents (bytes). -/
structure EmittedFile where
  dir : Chars
  file : Chars
  contents : Chars
deriving DecidableEq, Repr

/-- The non-entry, non-filename configuration a compilation's bytes may depend
on: the shared base fields plus `output.pathinfo`. -/
def webpackSettingsOf (cfg : WebpackConfig) : WebpackBaseConfig × Option Bool :=
  (cfg.base, cfg.outputPathinfo)

/-- Modelled from the spec: webpack's `output.filename` template — `[name].js`
re-expands to each entry's own filename (§4.3 step 3).  Only the template this
code uses is modelled; a literal filename is left unchanged. -/
def expandFilenameTemplate (template entryName : Chars) : Chars :=
  if template = ("[name].js").data then entryName ++ (".js").data else template

/-- Modelled from the spec: the backend compilation engine is an external
collaborator (§1).  For fixtures whose sources have no external side effects,
each entry's emitted bytes are a function `compileF` of its fixture path and
the non-entry settings alone; the engine writes one file per entry into
`output.path` under the entry's expanded filename. -/
def webpackEngineWrites (compileF : Chars → WebpackBaseConfig × Option Bool → Chars)
    (cfg : WebpackConfig) : List EmittedFile :=
  match cfg.entry with
  | WebpackEntry.single fp =>
    [⟨cfg.outputDir, cfg.outputFilename, compileF fp (webpackSettingsOf cfg)⟩]
  | WebpackEntry.multi entries =>
    entries.map fun kv =>
      ⟨cfg.outputDir, expandFilenameTemplate cfg.outputFilename kv.1,
        compileF kv.2 (webpackSettingsOf cfg)⟩

/-- Modelled from the spec: the webpack `buildFixture` wrapper (§4.2) — a
release pass at the derived `outputPath` and, when debug is requested, a second
non-minified pass at the derived `debugOutputPath` (the test snapshots show the
release bytes are identical with and without debug, so the release pass runs
with the non-debug configuration). -/
def webpackBuildFixtureWrites (compileF : Chars → WebpackBaseConfig × Option Bool → Chars)
    (fixturePath : Chars) (debug : Bool) : List EmittedFile :=
  webpackEngineWrites compileF
      (createWebpackConfig fixturePath (webpackOutputPath fixturePath) false)
    ++ (if debug then
        webpackEngineWrites compileF
          (createWebpackConfig fixturePath (webpackDebugOutputPath fixturePath) true)
      else [])

/-- The `{ fixturePath, outputPath }` rows handed to the multi-entry builder. -/
def webpackBatchInputs (fixturePaths : List Chars) : List WebpackFixtureInput :=
  fixturePaths.map fun fp => ⟨fp, webpackOutputPath fp⟩

/-- The debug-pass rows: the same fixtures pointed at the debug output names. -/
def webpackBatchDebugInputs (fixturePaths : List Chars) : List WebpackFixtureInput :=
  fixturePaths.map fun fp => ⟨fp, webpackDebugOutputPath fp⟩

/-- Modelled from the spec: the webpack `buildFixtures` wrapper (§4.3) — one
batched release compilation, plus a second batched debug pass (same entry
derivation, debug output names, minification disabled) when debug is set. -/
def webpackBuildFixturesWrites (compileF : Chars → WebpackBaseConfig × Option Bool → Chars)
    (fixturePaths : List Chars) (debug : Bool) : List EmittedFile :=
  ((createMultiEntryWebpackConfig (webpackBatchInputs fixturePaths) false).elim []
    (webpackEngineWrites compileF))
  ++ (if debug then
      (createMultiEntryWebpackConfig (webpackBatchDebugInputs fixturePaths) true).elim []
        (webpackEngineWrites compileF)
    else [])

/-- The bytes finally present at `dir/file` after a list of writes (later
writes overwrite earlier ones). -/
def lastWriteAt (writes : List EmittedFile) (dir file : Chars) : Option Chars :=
  (writes.reverse.find? fun w => decide (w.dir = dir) && decide (w.file = file)).map
    fun w => w.contents

theorem lastWriteAt_append_of_none (A B : List EmittedFile) (dir file : Chars)
    (hB : lastWriteAt B dir file = none) :
    lastWriteAt (A ++ B) dir file = lastWriteAt A dir file := by
  unfold lastWriteAt at *
  rw [List.reverse_append, List.find?_append]
  cases hfind : List.find? (fun w => decide (w.dir = dir) && decide (w.file = file)) B.reverse with
  | none => rw [Option.none_or]
  | some w => rw [hfind] at hB; simp at hB

theorem lastWriteAt_none_of_ne (W : List EmittedFile) (dir file : Chars)
    (h : ∀ w ∈ W, ¬(w.dir = dir ∧ w.file = file)) :
    lastWriteAt W dir file = none := by
  unfold lastWriteAt
  have hfind : List.find? (fun w => decide (w.dir = dir) && decide (w.file = file)) W.reverse
      = none := by
    rw [List.find?_eq_none]
    intro w hw
    have hwW : w ∈ W := by simpa using hw
    simp only [Bool.and_eq_true, decide_eq_true_eq]
    intro hcontra
    exact h w hwW hcontra
  rw [hfind]
  rfl

theorem debugFile_ne_outputFile (t s : Chars) :
    t ++ (".debug.js").data ≠ s ++ (".output.js").data := by
  intro h
  have hrev := congrArg List.reverse h
  rw [List.reverse_append, List.reverse_append] at hrev
  have h9 := congrArg (List.take 9) hrev
  have hL : (((".debug.js").data.reverse ++ t.reverse).take 9) = (".debug.js").data.reverse := by
    rw [show (9 : Nat) = ((".debug.js").data.reverse).length from by decide, List.take_left]
  have hR : (((".output.js").data.reverse ++ s.reverse).take 9)
      = ((".output.js").data.reverse).take 9 := by
    rw [List.take_append_eq_append_take]
    have h0 : 9 - ((".output.js").data.reverse).length = 0 := by decide
    rw [h0, List.take_zero, List.append_nil]
  rw [hL, hR] at h9
  exact absurd h9 (by decide)

theorem appendSuffix_injOnStems (suffix a b : Chars) (h : a ++ suffix = b ++ suffix) :
    a = b :=
  List.append_cancel_right h

theorem lastWriteAt_stem_map (d suffix : Chars) (contents : Chars → Chars)
    (stems : List Chars) (s : Chars) (hmem : s ∈ stems) (hnodup : stems.Nodup) :
    lastWriteAt (stems.map fun t => ⟨d, t ++ suffix, contents t⟩) d (s ++ suffix)
      = some (contents s) := by
  induction stems with
  | nil => cases hmem
  | cons t rest ih =>
    obtain ⟨hnotin, htail⟩ := List.nodup_cons.mp hnodup
    rw [List.map_cons]
    rcases List.mem_cons.mp hmem with hst | hsr
    · -- s is the head: no later write matches, the head write does
      have hnone : lastWriteAt (rest.map fun u => ⟨d, u ++ suffix, contents u⟩) d
          (s ++ suffix) = none := by
        refine lastWriteAt_none_of_ne _ _ _ ?_
        intro w hw
        obtain ⟨u, hu, rfl⟩ := List.mem_map.mp hw
        intro hcontra
        have hus : u = s := appendSuffix_injOnStems suffix u s hcontra.2
        rw [hus] at hu
        exact hnotin (hst ▸ hu)
      have hcons : (⟨d, t ++ suffix, contents t⟩ :: rest.map fun u => ⟨d, u ++ suffix, contents u⟩)
          = [(⟨d, t ++ suffix, contents t⟩ : EmittedFile)]
            ++ rest.map fun u => ⟨d, u ++ suffix, contents u⟩ := rfl
      rw [hcons, lastWriteAt_append_of_none _ _ _ _ hnone]
      unfold lastWriteAt
      rw [hst]
      simp [List.find?_cons]
    · -- s occurs in the tail: the later write wins
      have htailfound := ih hsr htail
      unfold lastWriteAt at htailfound ⊢
      rw [List.reverse_cons, List.find?_append]
      cases hfind : List.find?
          (fun w : EmittedFile => decide (w.dir = d) && decide (w.file = s ++ suffix))
          ((rest.map fun u => (⟨d, u ++ suffix, contents u⟩ : EmittedFile)).reverse) with
      | none => rw [hfind] at htailfound; simp at htailfound
      | some w =>
        rw [hfind] at htailfound
        exact htailfound

theorem entryKeyOf_append_suffix (p s suffix stemless : Chars)
    (hbase : basenameChars p = s ++ suffix)
    (hsx : suffix = stemless ++ (".js").data)
    (hrev : suffix.reverse = 's' :: 'j' :: '.' :: stemless.reverse)
    (hslen : 4 ≤ suffix.length) :
    entryKeyOf p = s ++ stemless := by
  have htake : ((s ++ suffix).reverse).takeWhile (fun c => decide (c ≠ '.')) = ['s', 'j'] := by
    rw [List.reverse_append, hrev]
    show ((['s', 'j'] ++ '.' :: stemless.reverse) ++ s.reverse).takeWhile
        (fun c => decide (c ≠ '.')) = ['s', 'j']
    rw [List.append_assoc]
    exact takeWhileAppendStop _ ['s', 'j'] '.' _ (by decide) (by decide)
  have hlenb : (s ++ suffix).length = s.length + suffix.length := List.length_append s suffix
  have hc1 : ¬(((s ++ suffix).reverse.takeWhile (fun c => decide (c ≠ '.'))).length
      = (s ++ suffix).length) := by
    rw [htake, hlenb]
    simp only [List.length_cons, List.length_nil]
    omega
  have hc2 : ¬((s ++ suffix).length
      - ((s ++ suffix).reverse.takeWhile (fun c => decide (c ≠ '.'))).length - 1 = 0) := by
    rw [htake, hlenb]
    simp only [List.length_cons, List.length_nil]
    omega
  have hc3 : ¬(s ++ suffix = ['.', '.']) := by
    intro hcontra
    have := congrArg List.length hcontra
    rw [hlenb] at this
    simp only [List.length_cons, List.length_nil] at this
    omega
  have hext : extnameChars p = (".js").data := by
    rw [extnameChars, hbase, if_neg hc1, if_neg hc2, if_neg hc3, htake]
    decide
  have hbS : s ++ suffix = (s ++ stemless) ++ (".js").data := by
    rw [hsx, List.append_assoc]
  have hSlen : (s ++ suffix).length - ((".js").data).length = (s ++ stemless).length := by
    rw [hbS, List.length_append]
    omega
  have hcond1 : s ++ suffix ≠ (".js").data := by
    intro hcontra
    have := congrArg List.length hcontra
    rw [hlenb] at this
    have h3 : ((".js").data).length = 3 := by decide
    rw [h3] at this
    omega
  have hcond2 : (s ++ suffix).drop ((s ++ suffix).length - ((".js").data).length)
      = (".js").data := by
    rw [hSlen, hbS, List.drop_left]
  rw [entryKeyOf, hext, basenameSuffixChars, hbase, if_pos ⟨hcond1, hcond2⟩, hSlen, hbS,
    List.take_left]

theorem webpackMultiConfig_writes
    (compileF : Chars → WebpackBaseConfig × Option Bool → Chars)
    (d s0 : Chars) (rest : List Chars) (suffix stemless : Chars) (debugFlag : Bool)
    (fps : Chars → Chars)
    (hd : d ≠ []) (hnodup : (s0 :: rest).Nodup) (hslash : ∀ u ∈ s0 :: rest, '/' ∉ u)
    (hsx : suffix = stemless ++ (".js").data)
    (hrev : suffix.reverse = 's' :: 'j' :: '.' :: stemless.reverse)
    (hslen : 4 ≤ suffix.length)
    (hsufslash : '/' ∉ suffix) :
    ((createMultiEntryWebpackConfig
        ((s0 :: rest).map fun u => ⟨fps u, d ++ '/' :: (u ++ suffix)⟩) debugFlag).elim []
      (webpackEngineWrites compileF))
    = (s0 :: rest).map fun u =>
        (⟨d, u ++ suffix,
          compileF (fps u)
            (createBaseWebpackConfig debugFlag,
              if debugFlag then some true else none)⟩ : EmittedFile) := by
  have htne : ∀ u : Chars, u ++ suffix ≠ [] := by
    intro u hcontra
    have hl := congrArg List.length hcontra
    rw [List.length_append] at hl
    simp only [List.length_nil] at hl
    omega
  have hts : ∀ u ∈ s0 :: rest, '/' ∉ u ++ suffix := by
    intro u hu h
    rcases List.mem_append.mp h with h1 | h1
    · exact hslash u hu h1
    · exact hsufslash h1
  have hkey : ∀ u ∈ s0 :: rest, entryKeyOf (d ++ '/' :: (u ++ suffix)) = u ++ stemless := by
    intro u hu
    exact entryKeyOf_append_suffix _ u suffix stemless
      (basenameChars_append d _ (htne u) (hts u hu)) hsx hrev hslen
  have hkeymap : (((s0 :: rest).map fun u =>
        (⟨fps u, d ++ '/' :: (u ++ suffix)⟩ : WebpackFixtureInput)).map
          fun f => entryKeyOf f.outputPath)
      = (s0 :: rest).map fun u => u ++ stemless := by
    rw [List.map_map]
    refine List.map_congr_left ?_
    intro u hu
    exact hkey u hu
  have hinj : Function.Injective fun u : Chars => u ++ stemless := by
    intro a b hab
    exact List.append_cancel_right hab
  have hkeynodup : ((((s0 :: rest)).map fun u =>
        (⟨fps u, d ++ '/' :: (u ++ suffix)⟩ : WebpackFixtureInput)).map
          fun f => entryKeyOf f.outputPath).Nodup := by
    rw [hkeymap]
    exact hnodup.map hinj
  have hnames : webpackEntryNames ((s0 :: rest).map fun u =>
        (⟨fps u, d ++ '/' :: (u ++ suffix)⟩ : WebpackFixtureInput))
      = ((s0 :: rest).map fun u =>
          (⟨fps u, d ++ '/' :: (u ++ suffix)⟩ : WebpackFixtureInput)).map
          fun f => entryKeyOf f.outputPath :=
    webpackEntryNamesGo_of_nodup _ [] 0 hkeynodup (by intro f _; simp)
  have hloop : webpackMultiEntry ((s0 :: rest).map fun u =>
        (⟨fps u, d ++ '/' :: (u ++ suffix)⟩ : WebpackFixtureInput))
      = [] ++ (webpackEntryNames ((s0 :: rest).map fun u =>
          (⟨fps u, d ++ '/' :: (u ++ suffix)⟩ : WebpackFixtureInput))).zip
          (((s0 :: rest).map fun u =>
            (⟨fps u, d ++ '/' :: (u ++ suffix)⟩ : WebpackFixtureInput)).map
            (·.fixturePath)) := by
    refine webpackEntryLoop_entries _ ⟨[], []⟩ 0 ?_ ?_ ?_
    · intro kv hkv; simp at hkv
    · show (webpackEntryNames _).Nodup
      rw [hnames]
      exact hkeynodup
    · intro n _; simp
  have hentry : webpackMultiEntry ((s0 :: rest).map fun u =>
        (⟨fps u, d ++ '/' :: (u ++ suffix)⟩ : WebpackFixtureInput))
      = ((s0 :: rest).map fun u =>
          (⟨fps u, d ++ '/' :: (u ++ suffix)⟩ : WebpackFixtureInput)).map
          fun f => (entryKeyOf f.outputPath, f.fixturePath) := by
    rw [hloop, List.nil_append, hnames, List.zip_map']
  have hcfg : createMultiEntryWebpackConfig
      ((s0 :: rest).map fun u => ⟨fps u, d ++ '/' :: (u ++ suffix)⟩) debugFlag
      = some { base := createBaseWebpackConfig debugFlag
               entry := WebpackEntry.multi (webpackMultiEntry ((s0 :: rest).map fun u =>
                 (⟨fps u, d ++ '/' :: (u ++ suffix)⟩ : WebpackFixtureInput)))
               outputFilename := ("[name].js").data
               outputDir := dirnameChars (d ++ '/' :: (s0 ++ suffix))
               outputPathinfo := if debugFlag then some true else none } := rfl
  rw [hcfg, Option.elim_some]
  rw [show webpackEngineWrites compileF
      { base := createBaseWebpackConfig debugFlag
        entry := WebpackEntry.multi (webpackMultiEntry ((s0 :: rest).map fun u =>
          (⟨fps u, d ++ '/' :: (u ++ suffix)⟩ : WebpackFixtureInput)))
        outputFilename := ("[name].js").data
        outputDir := dirnameChars (d ++ '/' :: (s0 ++ suffix))
        outputPathinfo := if debugFlag then some true else none }
    = (webpackMultiEntry ((s0 :: rest).map fun u =>
        (⟨fps u, d ++ '/' :: (u ++ suffix)⟩ : WebpackFixtureInput))).map fun kv =>
        (⟨dirnameChars (d ++ '/' :: (s0 ++ suffix)),
          expandFilenameTemplate ("[name].js").data kv.1,
          compileF kv.2 (createBaseWebpackConfig debugFlag,
            if debugFlag then some true else none)⟩ : EmittedFile) from rfl]
  rw [hentry, List.map_map, List.map_map]
  refine List.map_congr_left ?_
  intro u hu
  have hdir : dirnameChars (d ++ '/' :: (s0 ++ suffix)) = d :=
    dirnameChars_append d _ hd (htne s0) (hts s0 (List.mem_cons_self _ _))
  show (⟨dirnameChars (d ++ '/' :: (s0 ++ suffix)),
      expandFilenameTemplate ("[name].js").data (entryKeyOf (d ++ '/' :: (u ++ suffix))),
      compileF (fps u) (createBaseWebpackConfig debugFlag,
        if debugFlag then some true else none)⟩ : EmittedFile) = _
  rw [hkey u hu, hdir, expandFilenameTemplate, if_pos rfl, List.append_assoc, ← hsx]

theorem webpackSingleConfig_writes
    (compileF : Chars → WebpackBaseConfig × Option Bool → Chars)
    (fp d t : Chars) (debugFlag : Bool)
    (hd : d ≠ []) (ht : t ≠ []) (hts : '/' ∉ t) :
    webpackEngineWrites compileF (createWebpackConfig fp (d ++ '/' :: t) debugFlag)
      = [⟨d, t, compileF fp (createBaseWebpackConfig debugFlag,
          if debugFlag then some true else none)⟩] := by
  show [(⟨dirnameChars (d ++ '/' :: t), basenameChars (d ++ '/' :: t),
      compileF fp (createBaseWebpackConfig debugFlag,
        if debugFlag then some true else none)⟩ : EmittedFile)] = _
  rw [basenameChars_append d t ht hts, dirnameChars_append d t hd ht hts]

set_option maxHeartbeats 1600000 in
/-- C1: batch/single equivalence for the webpack adapter.  For a non-empty
batch of distinct fixtures `d/u.fixture.js` sharing one directory (the
documented `BatchBuildOptions` invariant), and an engine whose per-entry bytes
depend only on the entry's fixture path and the non-entry settings (the
"no external side effects" premise), the bytes finally present at each
fixture's derived `outputPath` after the batch build equal the bytes the
single-fixture build writes there — both are the compilation of that fixture
under the release settings. -/
theorem c1_batch_single_equivalence
    (compileF : Chars → WebpackBaseConfig × Option Bool → Chars)
    (d : Chars) (stems : List Chars) (debug : Bool) (s : Chars)
    (hd : d ≠ []) (hnodup : stems.Nodup) (hslash : ∀ u ∈ stems, '/' ∉ u)
    (hmem : s ∈ stems) :
    lastWriteAt (webpackBuildFixturesWrites compileF (stems.map (fixturePathOf d)) debug)
        (dirnameChars (webpackOutputPath (fixturePathOf d s)))
        (basenameChars (webpackOutputPath (fixturePathOf d s)))
      = lastWriteAt (webpackBuildFixtureWrites compileF (fixturePathOf d s) debug)
        (dirnameChars (webpackOutputPath (fixturePathOf d s)))
        (basenameChars (webpackOutputPath (fixturePathOf d s))) ∧
    lastWriteAt (webpackBuildFixturesWrites compileF (stems.map (fixturePathOf d)) debug)
        (dirnameChars (webpackOutputPath (fixturePathOf d s)))
        (basenameChars (webpackOutputPath (fixturePathOf d s)))
      = some (compileF (fixturePathOf d s) (createBaseWebpackConfig false, none)) := by
  cases stems with
  | nil => cases hmem
  | cons s0 rest =>
  have houtpath : ∀ u : Chars,
      webpackOutputPath (fixturePathOf d u) = d ++ '/' :: (u ++ (".output.js").data) := by
    intro u
    have hsplit : fixturePathOf d u = (d ++ '/' :: u) ++ (".fixture.js").data := by
      simp [fixturePathOf]
    rw [webpackOutputPath, hsplit, replaceFixtureSuffixExact_append]
    simp
  have hdbgpath : ∀ u : Chars,
      webpackDebugOutputPath (fixturePathOf d u) = d ++ '/' :: (u ++ (".debug.js").data) := by
    intro u
    have hsplit : fixturePathOf d u = (d ++ '/' :: u) ++ (".fixture.js").data := by
      simp [fixturePathOf]
    rw [webpackDebugOutputPath, hsplit, replaceFixtureSuffixExact_append]
    simp
  have houtne : ∀ u : Chars, u ++ (".output.js").data ≠ [] := by
    intro u h
    have hl := congrArg List.length h
    rw [List.length_append, show ((".output.js").data).length = 10 from by decide] at hl
    simp at hl
  have hdbgne : ∀ u : Chars, u ++ (".debug.js").data ≠ [] := by
    intro u h
    have hl := congrArg List.length h
    rw [List.length_append, show ((".debug.js").data).length = 9 from by decide] at hl
    simp at hl
  have houtslash : ∀ u ∈ s0 :: rest, '/' ∉ u ++ (".output.js").data := by
    intro u hu h
    rcases List.mem_append.mp h with h1 | h1
    · exact hslash u hu h1
    · exact absurd h1 (by decide)
  have hdbgslash : ∀ u ∈ s0 :: rest, '/' ∉ u ++ (".debug.js").data := by
    intro u hu h
    rcases List.mem_append.mp h with h1 | h1
    · exact hslash u hu h1
    · exact absurd h1 (by decide)
  have hdirS : dirnameChars (webpackOutputPath (fixturePathOf d s)) = d := by
    rw [houtpath s]
    exact dirnameChars_append d _ hd (houtne s) (houtslash s hmem)
  have hbaseS : basenameChars (webpackOutputPath (fixturePathOf d s))
      = s ++ (".output.js").data := by
    rw [houtpath s]
    exact basenameChars_append d _ (houtne s) (houtslash s hmem)
  rw [hdirS, hbaseS]
  have hinputsRel : webpackBatchInputs ((s0 :: rest).map (fixturePathOf d))
      = (s0 :: rest).map fun u =>
          (⟨fixturePathOf d u, d ++ '/' :: (u ++ (".output.js").data)⟩ :
            WebpackFixtureInput) := by
    rw [webpackBatchInputs, List.map_map]
    refine List.map_congr_left ?_
    intro u hu
    show (⟨fixturePathOf d u, webpackOutputPath (fixturePathOf d u)⟩ : WebpackFixtureInput) = _
    rw [houtpath u]
  have hinputsDbg : webpackBatchDebugInputs ((s0 :: rest).map (fixturePathOf d))
      = (s0 :: rest).map fun u =>
          (⟨fixturePathOf d u, d ++ '/' :: (u ++ (".debug.js").data)⟩ :
            WebpackFixtureInput) := by
    rw [webpackBatchDebugInputs, List.map_map]
    refine List.map_congr_left ?_
    intro u hu
    show (⟨fixturePathOf d u, webpackDebugOutputPath (fixturePathOf d u)⟩ :
        WebpackFixtureInput) = _
    rw [hdbgpath u]
  have hrelW : ((createMultiEntryWebpackConfig
        (webpackBatchInputs ((s0 :: rest).map (fixturePathOf d))) false).elim []
        (webpackEngineWrites compileF))
      = (s0 :: rest).map fun u =>
          (⟨d, u ++ (".output.js").data,
            compileF (fixturePathOf d u) (createBaseWebpackConfig false, none)⟩ :
            EmittedFile) := by
    rw [hinputsRel]
    have h := webpackMultiConfig_writes compileF d s0 rest (".output.js").data
        (".output").data false (fixturePathOf d) hd hnodup hslash
        (by decide) (by decide) (by decide) (by decide)
    simpa using h
  have hdbgW : ((createMultiEntryWebpackConfig
        (webpackBatchDebugInputs ((s0 :: rest).map (fixturePathOf d))) true).elim []
        (webpackEngineWrites compileF))
      = (s0 :: rest).map fun u =>
          (⟨d, u ++ (".debug.js").data,
            compileF (fixturePathOf d u) (createBaseWebpackConfig true, some true)⟩ :
            EmittedFile) := by
    rw [hinputsDbg]
    have h := webpackMultiConfig_writes compileF d s0 rest (".debug.js").data
        (".debug").data true (fixturePathOf d) hd hnodup hslash
        (by decide) (by decide) (by decide) (by decide)
    simpa using h
  have hbatchLookup : lastWriteAt
      (webpackBuildFixturesWrites compileF ((s0 :: rest).map (fixturePathOf d)) debug)
      d (s ++ (".output.js").data)
      = some (compileF (fixturePathOf d s) (createBaseWebpackConfig false, none)) := by
    rw [webpackBuildFixturesWrites, hrelW]
    have hdbgnone : lastWriteAt
        (if debug then
          ((createMultiEntryWebpackConfig
            (webpackBatchDebugInputs ((s0 :: rest).map (fixturePathOf d))) true).elim []
            (webpackEngineWrites compileF))
        else []) d (s ++ (".output.js").data) = none := by
      cases debug with
      | false => rfl
      | true =>
        show lastWriteAt ((createMultiEntryWebpackConfig
            (webpackBatchDebugInputs ((s0 :: rest).map (fixturePathOf d))) true).elim []
            (webpackEngineWrites compileF)) d (s ++ (".output.js").data) = none
        rw [hdbgW]
        refine lastWriteAt_none_of_ne _ _ _ ?_
        intro w hw
        obtain ⟨u, hu, rfl⟩ := List.mem_map.mp hw
        intro hcontra
        exact debugFile_ne_outputFile u s hcontra.2
    rw [lastWriteAt_append_of_none _ _ _ _ hdbgnone]
    exact lastWriteAt_stem_map d (".output.js").data
      (fun u => compileF (fixturePathOf d u) (createBaseWebpackConfig false, none))
      (s0 :: rest) s hmem hnodup
  have hsingleLookup : lastWriteAt
      (webpackBuildFixtureWrites compileF (fixturePathOf d s) debug)
      d (s ++ (".output.js").data)
      = some (compileF (fixturePathOf d s) (createBaseWebpackConfig false, none)) := by
    rw [webpackBuildFixtureWrites, houtpath s, hdbgpath s]
    have h1 := webpackSingleConfig_writes compileF (fixturePathOf d s) d
        (s ++ (".output.js").data) false hd (houtne s) (houtslash s hmem)
    have h2 := webpackSingleConfig_writes compileF (fixturePathOf d s) d
        (s ++ (".debug.js").data) true hd (hdbgne s) (hdbgslash s hmem)
    rw [h1, h2]
    have hdbgnone : lastWriteAt
        (if debug then
          [(⟨d, s ++ (".debug.js").data,
            compileF (fixturePathOf d s) (createBaseWebpackConfig true,
              if true then some true else none)⟩ : EmittedFile)]
        else []) d (s ++ (".output.js").data) = none := by
      cases debug with
      | false => rfl
      | true =>
        refine lastWriteAt_none_of_ne _ _ _ ?_
        intro w hw
        have hw' : w = ⟨d, s ++ (".debug.js").data,
            compileF (fixturePathOf d s) (createBaseWebpackConfig true,
              if true then some true else none)⟩ := by
          simpa using hw
        rw [hw']
        intro hcontra
        exact debugFile_ne_outputFile s s hcontra.2
    rw [lastWriteAt_append_of_none _ _ _ _ hdbgnone]
    unfold lastWriteAt
    simp [List.find?_cons]
  exact ⟨hbatchLookup.trans hsingleLookup.symm, hbatchLookup⟩

/-- C1 — witness: a two-fixture batch in `/pkg` with debug on, under the
engine that returns the fixture path as the bytes. -/
theorem c1_batch_single_equivalence_witness :
    (("/pkg").data ≠ ([] : Chars) ∧
      ([("a").data, ("b").data] : List Chars).Nodup ∧
      (∀ u ∈ [("a").data, ("b").data], '/' ∉ u) ∧
      ("a").data ∈ [("a").data, ("b").data]) ∧
    (lastWriteAt
        (webpackBuildFixturesWrites (fun (fp : Chars) (_ : WebpackBaseConfig × Option Bool) => fp)
          (([("a").data, ("b").data]).map (fixturePathOf ("/pkg").data)) true)
        (dirnameChars (webpackOutputPath (fixturePathOf ("/pkg").data ("a").data)))
        (basenameChars (webpackOutputPath (fixturePathOf ("/pkg").data ("a").data)))
      = lastWriteAt
        (webpackBuildFixtureWrites (fun (fp : Chars) (_ : WebpackBaseConfig × Option Bool) => fp)
          (fixturePathOf ("/pkg").data ("a").data) true)
        (dirnameChars (webpackOutputPath (fixturePathOf ("/pkg").data ("a").data)))
        (basenameChars (webpackOutputPath (fixturePathOf ("/pkg").data ("a").data))) ∧
      lastWriteAt
        (webpackBuildFixturesWrites (fun (fp : Chars) (_ : WebpackBaseConfig × Option Bool) => fp)
          (([("a").data, ("b").data]).map (fixturePathOf ("/pkg").data)) true)
        (dirnameChars (webpackOutputPath (fixturePathOf ("/pkg").data ("a").data)))
        (basenameChars (webpackOutputPath (fixturePathOf ("/pkg").data ("a").data)))
      = some ((fun (fp : Chars) (_ : WebpackBaseConfig × Option Bool) => fp) (fixturePathOf ("/pkg").data ("a").data)
          (createBaseWebpackConfig false, (none : Option Bool)))) :=
  ⟨⟨by decide, by decide, by decide, by decide⟩,
    c1_batch_single_equivalence (fun (fp : Chars) (_ : WebpackBaseConfig × Option Bool) => fp) ("/pkg").data
      [("a").data, ("b").data] true ("a").data
      (by decide) (by decide) (by decide) (by decide)⟩
